import Mathlib

/-!
Verification development for the Utility Ingestion and Reconciliation Engine
of the Decosta.ca repository.

The definitions below are a shallow embedding of the TypeScript source
(src/app/api/energy/ingest/route.ts, src/lib/unit-utility-policy.ts,
src/lib/meter-identifier-map.ts) and of the SQL materialized view
(src/db/migrations/002_energy_weather_report.sql).

Embedding conventions:
- JavaScript numbers are modelled as rationals; SQL numeric values likewise.
- JavaScript toFixed(k) rounding (round half toward positive infinity on the
  decimal expansion) is modelled by jsRound below; PostgreSQL numeric(12,3)
  rounding (half away from zero) by sqlRound3.
- Timestamps are modelled as epoch milliseconds (Date.getTime), calendar days
  from the SQL view as integers.
- Strings produced only for human-readable messages are modelled either as
  Lean strings built from the same pieces, or as structured payloads carrying
  exactly the values the source interpolates into the message.
- toLowerCase and trim are modelled for the ASCII data the engine handles.
-/

namespace Decosta

/-- Math.round: round half toward positive infinity. -/
def jsRound (q : ℚ) : ℤ := ⌊q + 1/2⌋

/-- Number(value.toFixed(2)), the roundMoney helper of the source. -/
def roundMoney (q : ℚ) : ℚ := ((jsRound (q * 100) : ℤ) : ℚ) / 100

/-- Number(value.toFixed(3)), the round3 helper of the source. -/
def round3 (q : ℚ) : ℚ := ((jsRound (q * 1000) : ℤ) : ℚ) / 1000

/-- PostgreSQL cast to numeric(12,3): round half away from zero at 3 decimals. -/
def sqlRound3 (q : ℚ) : ℚ :=
  if 0 ≤ q then ((⌊q * 1000 + 1/2⌋ : ℤ) : ℚ) / 1000
  else -(((⌊-q * 1000 + 1/2⌋ : ℤ) : ℚ) / 1000)

/-- String.prototype.toLowerCase for the ASCII strings the engine compares. -/
def asciiLower (s : String) : String := String.mk (s.data.map Char.toLower)

/-- String.prototype.trim. -/
def jsTrim (s : String) : String :=
  String.mk (((s.data.dropWhile Char.isWhitespace).reverse.dropWhile Char.isWhitespace).reverse)

/-! ## src/lib/unit-utility-policy.ts -/

/-- The property names of Object.prototype. UNIT_UTILITY_POLICY is a plain
object literal, so an index read that misses every own key still walks the
prototype chain and finds these members; their values are functions (and
the __proto__ accessor yields an object), never a utilities array. After
the toLowerCase in getAllowedUtilitiesForUnitName only the all-lowercase
names constructor and __proto__ remain reachable. -/
def objectPrototypeMemberNames : List String :=
  ["constructor", "hasOwnProperty", "isPrototypeOf", "propertyIsEnumerable",
   "toLocaleString", "toString", "valueOf", "__proto__",
   "__defineGetter__", "__defineSetter__", "__lookupGetter__", "__lookupSetter__"]

/-- The value UNIT_UTILITY_POLICY[key] ?? DEFAULT_ALLOWED evaluates to:
either a utilities array (an own key, or the DEFAULT_ALLOWED fallback when
the read is undefined), or an inherited Object.prototype member, which is
not nullish, so the ?? fallback does not fire on it. -/
inductive PolicyValue where
  | utilities (allowed : List String)
  | inheritedMember
deriving DecidableEq

/-- getAllowedUtilitiesForUnitName in src/lib/unit-utility-policy.ts:
own keys of UNIT_UTILITY_POLICY first, then the prototype chain of the
plain object literal, then the ?? DEFAULT_ALLOWED fallback. -/
def getAllowedUtilitiesForUnitName (unitName : String) : PolicyValue :=
  let key := asciiLower (jsTrim unitName)
  if key = "coach" then .utilities ["electricity"]
  else if key = "suite" then .utilities ["electricity"]
  else if key = "house" then .utilities ["electricity", "gas"]
  else if key ∈ objectPrototypeMemberNames then .inheritedMember
  else .utilities ["electricity", "gas", "water"]

/-- isUtilityAllowedForUnit in src/lib/unit-utility-policy.ts: calls
Array.prototype.includes on the policy value; on an inherited non-array
member that call throws a TypeError, modelled as none. -/
def isUtilityAllowedForUnit (unitName utilityType : String) : Option Bool :=
  match getAllowedUtilitiesForUnitName unitName with
  | .utilities allowed => some (allowed.contains utilityType)
  | .inheritedMember => none

/-! ## src/lib/meter-identifier-map.ts -/

structure MeterIdentifierMapping where
  unitName : String
  utilityType : String
  readingUnitDefault : String
  label : String
deriving DecidableEq

/-- normalizeMeterIdentifier: value.replace of every non-digit by nothing. -/
def normalizeMeterIdentifier (value : String) : String :=
  String.mk (value.data.filter Char.isDigit)

/-- lookupMeterIdentifier over the static METER_IDENTIFIER_MAP registry. -/
def lookupMeterIdentifier (value : String) : Option MeterIdentifierMapping :=
  let n := normalizeMeterIdentifier value
  if n = "345185639" then
    some ⟨"House", "electricity", "kWh", "House electricity meter"⟩
  else if n = "345185645" then
    some ⟨"Coach", "electricity", "kWh", "Coach electricity meter"⟩
  else if n = "348819731" then
    some ⟨"Suite", "electricity", "kWh", "Suite electricity meter"⟩
  else none

/-! ## Cost estimator (route.ts lines 1000-1118) -/

structure UsageBucket where
  usageUnit : String
  usageValue : ℚ
deriving DecidableEq

structure CostEstimate where
  totalCad : ℚ
  fixedCad : ℚ
  variableCad : ℚ
  taxesAndLeviesCad : ℚ
  days : ℚ
  assumptions : List String
deriving DecidableEq

structure BcHydroRates where
  basicChargePerDay : ℚ
  tier1KwhRate : ℚ
  tier2KwhRate : ℚ
  tier1KwhPerDayThreshold : ℚ
  gstRate : ℚ

def BC_HYDRO_RATES : BcHydroRates :=
  { basicChargePerDay := 0.2330
    tier1KwhRate := 0.1172
    tier2KwhRate := 0.1408
    tier1KwhPerDayThreshold := 22.5
    gstRate := 0.05 }

structure FortisGasRates where
  basicChargePerDay : ℚ
  deliveryPerGj : ℚ
  storageTransportPerGj : ℚ
  gasCommodityPerGj : ℚ
  cleanEnergyLevyRate : ℚ
  gstRate : ℚ
  estimatedGjPerM3 : ℚ

def FORTIS_GAS_RATES : FortisGasRates :=
  { basicChargePerDay := 0.4216
    deliveryPerGj := 8.469
    storageTransportPerGj := 2.255
    gasCommodityPerGj := 2.23
    cleanEnergyLevyRate := 0.004
    gstRate := 0.05
    estimatedGjPerM3 := 0.1325 }

/-- toGasGj: pass GJ through, convert cubic metres, otherwise null. -/
def toGasGj (usageValue : ℚ) (usageUnit : String) : Option ℚ :=
  let normalized := asciiLower usageUnit
  if normalized = "gj" then some usageValue
  else if normalized = "m3" ∨ normalized = "m^3" ∨ normalized = "m³" then
    some (usageValue * FORTIS_GAS_RATES.estimatedGjPerM3)
  else none

/-- estimateElectricityCostCad: BC Hydro two-tier residential estimate. -/
def estimateElectricityCostCad (kwh days : ℚ) : CostEstimate :=
  let fixedBase := BC_HYDRO_RATES.basicChargePerDay * days
  let tier1Cap := BC_HYDRO_RATES.tier1KwhPerDayThreshold * days
  let tier1Kwh := min (max kwh 0) tier1Cap
  let tier2Kwh := max (kwh - tier1Kwh) 0
  let variableBase := tier1Kwh * BC_HYDRO_RATES.tier1KwhRate + tier2Kwh * BC_HYDRO_RATES.tier2KwhRate
  let subtotal := fixedBase + variableBase
  let gst := subtotal * BC_HYDRO_RATES.gstRate
  { totalCad := roundMoney (subtotal + gst)
    fixedCad := roundMoney fixedBase
    variableCad := roundMoney variableBase
    taxesAndLeviesCad := roundMoney gst
    days := round3 days
    assumptions :=
      ["BC Hydro RS 1101 tiered estimate with prorated Step 1 threshold",
       "GST included (5%)",
       "Excludes optional flat/time-of-day pricing and credits"] }

/-- estimateGasCostCadFromGj: FortisBC residential gas estimate. -/
def estimateGasCostCadFromGj (gj days : ℚ) : CostEstimate :=
  let fixedBase := FORTIS_GAS_RATES.basicChargePerDay * days
  let variablePerGj :=
    FORTIS_GAS_RATES.deliveryPerGj + FORTIS_GAS_RATES.storageTransportPerGj +
      FORTIS_GAS_RATES.gasCommodityPerGj
  let variableBase := max gj 0 * variablePerGj
  let subtotalBeforeLevy := fixedBase + variableBase
  let levy := subtotalBeforeLevy * FORTIS_GAS_RATES.cleanEnergyLevyRate
  let gst := (subtotalBeforeLevy + levy) * FORTIS_GAS_RATES.gstRate
  { totalCad := roundMoney (subtotalBeforeLevy + levy + gst)
    fixedCad := roundMoney fixedBase
    variableCad := roundMoney variableBase
    taxesAndLeviesCad := roundMoney (levy + gst)
    days := round3 days
    assumptions :=
      ["FortisBC mainland residential gas estimate",
       "m3 converted to GJ using estimated factor 0.1325 when required",
       "BC clean energy levy and GST included"] }

/-- estimateCostForBuckets: dispatch on utility type, null when days is not
positive (Number.isFinite always holds for rationals). -/
def estimateCostForBuckets (utilityType : String) (buckets : List UsageBucket) (days : ℚ) :
    Option CostEstimate :=
  if days ≤ 0 then none
  else if utilityType = "electricity" then
    let totalKwh :=
      ((buckets.filter (fun b => asciiLower b.usageUnit = "kwh")).map UsageBucket.usageValue).sum
    some (estimateElectricityCostCad totalKwh days)
  else if utilityType = "gas" then
    let gjBuckets := buckets.filter (fun b => asciiLower b.usageUnit = "gj")
    let sourceBuckets := if gjBuckets.length > 0 then gjBuckets else buckets
    let totalGj := (sourceBuckets.map (fun b => (toGasGj b.usageValue b.usageUnit).getD 0)).sum
    some (estimateGasCostCadFromGj totalGj days)
  else none

/-- Specification-side predicate: a monetary amount is a whole number of cents. -/
def centsRounded (q : ℚ) : Prop := ∃ n : ℤ, q = (n : ℚ) / 100

/-! ## Daily apportionment (002_energy_weather_report.sql, meter_daily CTE) -/

/-- One approved meter_read fact of a single (unit, utility) partition:
its calendar day in the report timezone and its cumulative reading value. -/
structure MeterFact where
  day : ℤ
  reading_value : ℚ
deriving DecidableEq

/-- Rows the meter_daily CTE emits for one lag interval: one row per calendar
day generated by generate_series(prev_day + 1, reading_day), each valued
(total_delta / days_between) cast to numeric(12,3), with
days_between = greatest(reading_day - prev_day, 1). -/
def meterIntervalRows (prevDay : ℤ) (prevValue : ℚ) (readingDay : ℤ) (readingValue : ℚ) :
    List (ℤ × ℚ) :=
  (List.range (readingDay - prevDay).toNat).map (fun (k : ℕ) =>
    ((prevDay + 1 + (k : ℤ) : ℤ),
     sqlRound3 ((readingValue - prevValue) / ((max (readingDay - prevDay) 1 : ℤ) : ℚ))))

/-- Consecutive pairs of a list, the lag(...) over (order by captured_at)
window pairing of meter_ordered. -/
def adjPairs {α : Type} : List α → List (α × α)
  | [] => []
  | [_] => []
  | x :: y :: rest => (x, y) :: adjPairs (y :: rest)

/-- The meter_daily rows of one (unit, utility) partition, reads ordered by
captured_at. -/
def meterDaily (reads : List MeterFact) : List (ℤ × ℚ) :=
  (adjPairs reads).flatMap (fun p =>
    meterIntervalRows p.1.day p.1.reading_value p.2.day p.2.reading_value)

/-! ## Reading normalizer (route.ts lines 1126-1150 and 1703-1822) -/

/-- One prior approved meter_read row as consumed by the normalizer:
capture timestamp in epoch milliseconds and cumulative reading value. -/
structure ReadRow where
  captured_at : ℚ
  reading_value : ℚ
deriving DecidableEq

def msPerDay : ℚ := 1000 * 60 * 60 * 24

/-- getMaxReasonableDailyUsage: per-utility daily consumption ceilings. -/
def getMaxReasonableDailyUsage (utilityType : String) : ℚ :=
  if utilityType = "electricity" then 250
  else if utilityType = "gas" then 80
  else if utilityType = "water" then 20
  else 250

/-- getRollingWindowSize: history window length per utility. -/
def getRollingWindowSize (utilityType : String) : ℕ :=
  if utilityType = "electricity" then 12
  else if utilityType = "gas" then 18
  else if utilityType = "water" then 12
  else 12

/-- The absolute ceiling the normalizer computes:
getMaxReasonableDailyUsage(utilityType) * Math.max(elapsedDays, 1). -/
def maxPlausibleDelta (utilityType : String) (elapsedDays : ℚ) : ℚ :=
  getMaxReasonableDailyUsage utilityType * max elapsedDays 1

/-- The (rate, weight) pairs of the rolling history loop: consecutive history
deltas with non-negative delta, rate = delta / days (days floored at 1/24),
weight = Math.max(rows.length - i, 1) for loop index i. -/
def weightedRates (rows : List ReadRow) : List (ℚ × ℚ) :=
  (rows.zip rows.tail).enum.filterMap (fun p =>
    let newer := p.2.1
    let older := p.2.2
    let delta := newer.reading_value - older.reading_value
    let days := max ((newer.captured_at - older.captured_at) / msPerDay) (1/24)
    if delta < 0 then none
    else some (delta / days, max ((rows.length : ℚ) - (p.1 : ℚ)) 1))

/-- rollingDailyExpected: recency-weighted mean daily rate, null when the
weight sum is not positive. -/
def rollingDailyExpected (rows : List ReadRow) : Option ℚ :=
  let wr := weightedRates rows
  let weightedRateSum := (wr.map (fun it => it.1 * it.2)).sum
  let weightSum := (wr.map (fun it => it.2)).sum
  if 0 < weightSum then some (weightedRateSum / weightSum) else none

/-- The acceptance band (allowedDeltaLow, allowedDeltaHigh) derived from the
optional expected daily rate. -/
def allowedBand (utilityType : String) (elapsedDays : ℚ) (expectedRate : Option ℚ) : ℚ × ℚ :=
  match expectedRate with
  | none => (0, maxPlausibleDelta utilityType elapsedDays)
  | some rate =>
    let expectedDelta := rate * elapsedDays
    let tolerance := max (max (expectedDelta * 0.75) rate) 2
    (max 0 (expectedDelta - tolerance),
     min (maxPlausibleDelta utilityType elapsedDays) (expectedDelta + tolerance))

/-- buildMeterReadVariants: the raw value, plus (for an integer raw value)
the variants that drop the last one or two decimal digits of the rounded
value, collected through a Set so duplicates are kept once.

The source builds the digit-stripped variants through the decimal string of
Math.round(raw): Number(String(n).slice(0, -1)) drops the final character.
For the integers String produces in decimal notation that equals division by
10 truncated toward zero, and the string-length guards length >= 4 and
length >= 5 (the sign counts one character) are the numeric guards below. -/
def buildMeterReadVariants (raw : ℚ) : List ℚ :=
  let base : List ℚ := [raw]
  let rounded := jsRound raw
  if raw.den = 1 ∧ (1000 ≤ rounded ∨ rounded ≤ -100) then
    let strip1 : ℚ := ((rounded.tdiv 10 : ℤ) : ℚ)
    let withS1 := if strip1 ∈ base then base else base ++ [strip1]
    if 10000 ≤ rounded ∨ rounded ≤ -1000 then
      let strip2 : ℚ := ((rounded.tdiv 100 : ℤ) : ℚ)
      if strip2 ∈ withS1 then withS1 else withS1 ++ [strip2]
    else withS1
  else base

structure ScoredCandidate where
  candidate : ℚ
  delta : ℚ
  withinReasonable : Bool
  score : ℚ
  expectedScore : ℚ
deriving DecidableEq

/-- candidateValues of the normalizer: variants at least the previous value,
scored by distance to the expected delta (plus a small penalty for any
candidate other than the raw value), kept when within the band or under the
absolute ceiling, sorted ascending by score (stable sort). -/
def scoredCandidates (prevValue rawValue lo hi maxDelta : ℚ) (expectedDelta : Option ℚ) :
    List ScoredCandidate :=
  ((((buildMeterReadVariants rawValue).filter (fun c => decide (prevValue ≤ c))).map (fun c =>
      let delta := c - prevValue
      let withinReasonable := decide (lo ≤ delta) && decide (delta ≤ hi)
      let expectedScore := match expectedDelta with
        | some e => |delta - e|
        | none => delta
      let digitPenalty : ℚ := if c = rawValue then 0 else 0.01
      ScoredCandidate.mk c delta withinReasonable (expectedScore + digitPenalty)
        expectedScore)).filter
    (fun it => it.withinReasonable || decide (it.delta ≤ maxDelta))).mergeSort
    (fun a b => decide (a.score ≤ b.score))

/-- Structured payload of the human-readable correctionNote strings the
normalizer interpolates: either the auto-correction note or the
flagged-for-review message, carrying exactly the values the source prints. -/
inductive NormNote where
  | corrected (rawValue correctedValue prevValue elapsedDays : ℚ) (utilityType : String)
  | reviewRequired (rawValue prevValue rawDelta elapsedDays : ℚ) (expectedDelta : Option ℚ)
deriving DecidableEq

structure NormResult where
  readingValue : ℚ
  correctionNote : Option NormNote
  flagged : Bool
deriving DecidableEq

/-- The shouldCorrect test: the best candidate differs from the raw value,
and either the raw value survived no filter, or the corrected score is below
a quarter of the raw score, or the raw delta exceeds the absolute ceiling. -/
def shouldCorrectFlag (rawValue maxReasonableDelta rawDelta : ℚ)
    (best : ScoredCandidate) (rawCandidate : Option ScoredCandidate) : Bool :=
  decide (best.candidate ≠ rawValue) &&
  (match rawCandidate with
   | none => true
   | some rc =>
     decide (best.expectedScore < rc.expectedScore * 0.25) ||
       decide (maxReasonableDelta < rawDelta))

/-- normalizeMeterImageReadingValue as a pure function over the fetched
history (most recent first, as returned by getRecentMeterReads). -/
def normalizeMeterImageReadingValue (utilityType : String) (recent : List ReadRow)
    (capturedAtMs rawValue : ℚ) : NormResult :=
  match recent with
  | [] => ⟨rawValue, none, false⟩
  | latest :: _ =>
    let prevValue := latest.reading_value
    let elapsedDays := max ((capturedAtMs - latest.captured_at) / msPerDay) (1/24)
    let maxReasonableDelta := maxPlausibleDelta utilityType elapsedDays
    let rawDelta := rawValue - prevValue
    let expectedRate := rollingDailyExpected recent
    let expectedDelta := expectedRate.map (fun r => r * elapsedDays)
    let band := allowedBand utilityType elapsedDays expectedRate
    if band.1 ≤ rawDelta ∧ rawDelta ≤ band.2 then ⟨rawValue, none, false⟩
    else
      let cands := scoredCandidates prevValue rawValue band.1 band.2 maxReasonableDelta expectedDelta
      match cands with
      | [] =>
        ⟨rawValue, some (.reviewRequired rawValue prevValue rawDelta elapsedDays expectedDelta), true⟩
      | best :: _ =>
        let rawCandidate := cands.find? (fun it => decide (it.candidate = rawValue))
        if shouldCorrectFlag rawValue maxReasonableDelta rawDelta best rawCandidate then
          ⟨best.candidate, some (.corrected rawValue best.candidate prevValue elapsedDays utilityType),
            false⟩
        else ⟨rawValue, none, false⟩

/-- Observable persistence effects of the meter-image ingest tail
(route.ts lines 2129-2148). -/
inductive IngestEffect where
  | insertMeterReading (readingValue : ℚ)
  | refreshDailySeries
deriving DecidableEq

/-- The meter-image ingest tail after unit resolution: normalize the parsed
value; a flagged normalization returns the 422 error response carrying the
correction note and performs no write, otherwise the row is inserted and the
daily series rebuilt. -/
def processMeterImageTail (utilityType : String) (recent : List ReadRow)
    (capturedAtMs rawValue : ℚ) : Except (Option NormNote) ℚ × List IngestEffect :=
  let norm := normalizeMeterImageReadingValue utilityType recent capturedAtMs rawValue
  if norm.flagged then (Except.error norm.correctionNote, [])
  else (Except.ok norm.readingValue,
    [IngestEffect.insertMeterReading norm.readingValue, IngestEffect.refreshDailySeries])

/-! ## Bill deduplicator (route.ts lines 1120-1124 and 1217-1270) -/

/-- An extracted entry as validated from the AI extraction payload.
captured_at is modelled as the epoch-millisecond value Date.getTime parses
from the ISO string. -/
structure ExtractedEntry where
  entry_type : String
  utility_type : String
  captured_at : ℚ
  reading_value : ℚ
  reading_unit : String
  period_start : Option String
  period_end : Option String
  is_opening : Option Bool
  bill_id : Option String
  confidence : ℚ
  evidence : String
deriving DecidableEq

structure BillDedupeRemoval where
  bill_id : Option String
  utility_type : String
  reading_unit : String
  reading_value : ℚ
  reason : String
deriving DecidableEq

/-- nearlyEqual with the default tolerances absTolerance = 1 and
relativeTolerance = 0.02. -/
def nearlyEqual (a b : ℚ) : Bool :=
  decide (|a - b| ≤ max 1 (max (max |a| |b|) 1 * 0.02))

/-- JavaScript (x || null) on an optional string: the empty string is falsy. -/
def jsOrNull (o : Option String) : Option String :=
  match o with
  | some s => if s = "" then none else some s
  | none => none

/-- The meter reads compared against one billed_usage entry: same utility
type, same lowercased reading unit, same (bill_id || null). -/
def qualifyingMeterReads (meterReads : List ExtractedEntry) (billed : ExtractedEntry) :
    List ExtractedEntry :=
  meterReads.filter (fun read =>
    decide (read.utility_type = billed.utility_type) &&
    decide (asciiLower read.reading_unit = asciiLower billed.reading_unit) &&
    decide (jsOrNull read.bill_id = jsOrNull billed.bill_id))

/-- The removal record for one billed_usage entry, when at least two
qualifying reads exist and the earliest-to-latest meter delta is non-negative
and nearly equal to the billed value; none otherwise. -/
def billedRemovalRecord (meterReads : List ExtractedEntry) (billed : ExtractedEntry) :
    Option BillDedupeRemoval :=
  let candidates := qualifyingMeterReads meterReads billed
  if 2 ≤ candidates.length then
    let sorted := candidates.mergeSort (fun a b => decide (a.captured_at ≤ b.captured_at))
    match sorted.head?, sorted.getLast? with
    | some opening, some closing =>
      let meterDelta := closing.reading_value - opening.reading_value
      if 0 ≤ meterDelta ∧ nearlyEqual billed.reading_value meterDelta then
        some { bill_id := billed.bill_id
               utility_type := billed.utility_type
               reading_unit := billed.reading_unit
               reading_value := billed.reading_value
               reason := "Matches meter delta (" ++ toString (round3 closing.reading_value) ++
                 " - " ++ toString (round3 opening.reading_value) ++ " = " ++
                 toString (round3 meterDelta) ++ ")" }
      else none
    | _, _ => none
  else none

/-- dedupeRedundantBilledUsageEntries: drop billed_usage entries restating a
meter delta, keep everything else in the original order, and report each
removal. -/
def dedupeRedundantBilledUsageEntries (entries : List ExtractedEntry) :
    List ExtractedEntry × List BillDedupeRemoval :=
  if entries.length ≤ 1 then (entries, [])
  else
    let meterReads := entries.filter (fun e => decide (e.entry_type = "meter_read"))
    let billedUsage := entries.filter (fun e => decide (e.entry_type = "billed_usage"))
    let removed := billedUsage.filterMap (billedRemovalRecord meterReads)
    let keep : ExtractedEntry → Bool := fun e =>
      !(decide (e.entry_type = "billed_usage") && (billedRemovalRecord meterReads e).isSome)
    (entries.filter keep, removed)

/-! ## Meter identifier resolver (route.ts lines 1169-1215) -/

structure ExtractedMeterImage where
  meter_identifier : String
  meter_identifier_candidates : List String
  evidence : String
deriving DecidableEq

structure ResolvedMeter where
  identifier : String
  mapping : Option MeterIdentifierMapping
  tried : List String
deriving DecidableEq

/-- A character the digit-sequence pattern may contain after its first digit:
a digit, whitespace or a hyphen. -/
def isSeqChar (c : Char) : Bool := c.isDigit || c.isWhitespace || c = '-'

/-- The global scan of the evidence text for the pattern
digit, then at least four characters from digit or whitespace or hyphen,
then a digit: at a starting digit the greedy match is the maximal run of
allowed characters trimmed back to its last digit, kept when at least six
characters long; scanning resumes after a match, and a run without a long
enough match cannot contain a later match start, so the scan skips it.
Fuel is the length of the text, enough because every step consumes at least
one character. -/
def digitSeqScanFuel : ℕ → List Char → List (List Char)
  | 0, _ => []
  | _, [] => []
  | fuel + 1, c :: rest =>
    if c.isDigit then
      let run := c :: rest.takeWhile isSeqChar
      let m := (run.reverse.dropWhile (fun ch => !ch.isDigit)).reverse
      if 6 ≤ m.length then
        m :: digitSeqScanFuel fuel (rest.drop (m.length - 1))
      else
        digitSeqScanFuel fuel (rest.drop (run.length - 1))
    else digitSeqScanFuel fuel rest

/-- extractDigitSequences: digit sequences of length at least six found in the
evidence text, each normalized to digits only, empty results dropped. -/
def extractDigitSequences (text : String) : List String :=
  ((digitSeqScanFuel text.data.length text.data).map (fun l =>
    String.mk (l.filter Char.isDigit))).filter (fun s => decide (s ≠ ""))

/-- uniqueNormalizedMeterIdCandidates: skip falsy inputs, normalize to digits
only, skip empty normalizations, deduplicate preserving first occurrence. -/
def uniqueNormalizedMeterIdCandidates (values : List String) : List String :=
  values.foldl (fun acc value =>
    if value = "" then acc
    else
      if normalizeMeterIdentifier value = "" ∨ normalizeMeterIdentifier value ∈ acc then acc
      else acc ++ [normalizeMeterIdentifier value]) []

/-- The test of the regular expression for the known BC Hydro format: the
string is the digits 3, 4, 5 followed by exactly six more digits. -/
def matches345Format (s : String) : Bool :=
  s.data.length = 9 && decide (s.data.take 3 = ['3', '4', '5']) &&
    (s.data.drop 3).all Char.isDigit

/-- The sort score of one candidate inside chooseMappedMeterIdentifier. -/
def meterIdScore (s : String) : ℕ :=
  (if matches345Format s then 10 else 0) + (if s.data.length = 9 then 1 else 0)

/-- Specification-side format-affinity rank: the known nine-digit 345 prefix
pattern ranks above plain nine-digit length, which ranks above the rest. -/
def formatAffinityRank (s : String) : ℕ :=
  if matches345Format s then 2 else if s.data.length = 9 then 1 else 0

/-- chooseMappedMeterIdentifier: gather candidates from the primary
identifier, the candidate list and the evidence text, rank them, and return
the first candidate the registry maps, else no mapping plus all candidates
tried. -/
def chooseMappedMeterIdentifier (extracted : ExtractedMeterImage) : ResolvedMeter :=
  let candidates := uniqueNormalizedMeterIdCandidates
    (extracted.meter_identifier ::
      (extracted.meter_identifier_candidates ++ extractDigitSequences extracted.evidence))
  let prioritized := candidates.mergeSort (fun a b => decide (meterIdScore b ≤ meterIdScore a))
  match prioritized.find? (fun c => (lookupMeterIdentifier c).isSome) with
  | some c => ⟨c, lookupMeterIdentifier c, prioritized⟩
  | none => ⟨normalizeMeterIdentifier extracted.meter_identifier, none, prioritized⟩

/-! ## Helper lemmas -/

theorem jsRound_bounds (q : ℚ) : q - 1/2 ≤ (jsRound q : ℚ) ∧ (jsRound q : ℚ) ≤ q + 1/2 := by
  unfold jsRound
  constructor
  · have h := Int.lt_floor_add_one (q + 1/2)
    linarith
  · exact_mod_cast Int.floor_le (q + 1/2)

theorem roundMoney_mono {a b : ℚ} (h : a ≤ b) : roundMoney a ≤ roundMoney b := by
  unfold roundMoney jsRound
  have : ⌊a * 100 + 1/2⌋ ≤ ⌊b * 100 + 1/2⌋ := Int.floor_mono (by linarith)
  have h2 : ((⌊a * 100 + 1/2⌋ : ℤ) : ℚ) ≤ ((⌊b * 100 + 1/2⌋ : ℤ) : ℚ) := by exact_mod_cast this
  linarith

theorem roundMoney_add_close (x y : ℚ) :
    |roundMoney (x + y) - (roundMoney x + roundMoney y)| ≤ 1/100 := by
  have hx := jsRound_bounds (x * 100)
  have hy := jsRound_bounds (y * 100)
  have hxy := jsRound_bounds ((x + y) * 100)
  set a := jsRound (x * 100) with ha
  set b := jsRound (y * 100) with hb
  set c := jsRound ((x + y) * 100) with hc
  have habs : |((c - a - b : ℤ) : ℚ)| ≤ 3/2 := by
    rw [abs_le]
    push_cast
    constructor <;> linarith
  have hint : |c - a - b| ≤ 1 := by
    have h32 : ((|c - a - b| : ℤ) : ℚ) ≤ 3/2 := by
      rw [Int.cast_abs]
      exact habs
    push_cast at h32
    by_contra hcon
    push_neg at hcon
    have h2 : (2 : ℤ) ≤ |c - a - b| := hcon
    have h2q : ((2 : ℤ) : ℚ) ≤ ((|c - a - b| : ℤ) : ℚ) := by exact_mod_cast h2
    norm_num at h2q
    linarith
  have : |((c - a - b : ℤ) : ℚ)| ≤ 1 := by
    rw [← Int.cast_abs]
    exact_mod_cast hint
  unfold roundMoney
  rw [← ha, ← hb, ← hc]
  have expand : ((c : ℚ) : ℚ) / 100 - (((a : ℚ)) / 100 + ((b : ℚ)) / 100) =
      ((c - a - b : ℤ) : ℚ) / 100 := by
    push_cast
    ring
  rw [expand]
  rw [abs_div]
  have : |((100 : ℚ))| = 100 := by norm_num
  rw [this]
  linarith [div_le_div_of_nonneg_right (c := (100 : ℚ)) ‹|((c - a - b : ℤ) : ℚ)| ≤ 1› (by norm_num)]

theorem centsRounded_roundMoney (q : ℚ) : centsRounded (roundMoney q) :=
  ⟨jsRound (q * 100), rfl⟩

/-- The electricity variable charge, as a function of usage, is monotone. -/
theorem elec_variable_mono {cap r1 r2 : ℚ} (hcap : 0 ≤ cap) (hr1 : 0 ≤ r1) (hr2 : 0 ≤ r2)
    {k1 k2 : ℚ} (h : k1 ≤ k2) :
    min (max k1 0) cap * r1 + max (k1 - min (max k1 0) cap) 0 * r2 ≤
      min (max k2 0) cap * r1 + max (k2 - min (max k2 0) cap) 0 * r2 := by
  have t2eq : ∀ k : ℚ, max (k - min (max k 0) cap) 0 = max (k - cap) 0 := by
    intro k
    rcases le_total k 0 with hk | hk
    · rcases le_total k cap with h2 | h2 <;>
        simp [max_def, min_def] <;> split_ifs <;> linarith
    · rcases le_total k cap with h2 | h2 <;>
        simp [max_def, min_def] <;> split_ifs <;> linarith
  rw [t2eq k1, t2eq k2]
  have h1 : min (max k1 0) cap ≤ min (max k2 0) cap :=
    min_le_min (max_le_max h le_rfl) le_rfl
  have h2 : max (k1 - cap) 0 ≤ max (k2 - cap) 0 :=
    max_le_max (by linarith) le_rfl
  have := mul_le_mul_of_nonneg_right h1 hr1
  have := mul_le_mul_of_nonneg_right h2 hr2
  linarith

theorem abs_sqlRound3_sub_le (q : ℚ) : |sqlRound3 q - q| ≤ 1/2000 := by
  unfold sqlRound3
  split
  · have h1 : (q * 1000 + 1/2) - 1 < (⌊q * 1000 + 1/2⌋ : ℚ) := by
      have := Int.lt_floor_add_one (q * 1000 + 1/2)
      linarith
    have h2 : ((⌊q * 1000 + 1/2⌋ : ℤ) : ℚ) ≤ q * 1000 + 1/2 := Int.floor_le _
    rw [abs_le]
    constructor <;> [linarith; linarith]
  · have h1 : (-q * 1000 + 1/2) - 1 < (⌊-q * 1000 + 1/2⌋ : ℚ) := by
      have := Int.lt_floor_add_one (-q * 1000 + 1/2)
      linarith
    have h2 : ((⌊-q * 1000 + 1/2⌋ : ℤ) : ℚ) ≤ -q * 1000 + 1/2 := Int.floor_le _
    rw [abs_le]
    constructor <;> [linarith; linarith]

theorem adjPairs_nil {α : Type} : adjPairs ([] : List α) = [] := rfl

theorem adjPairs_single {α : Type} (x : α) : adjPairs [x] = [] := rfl

theorem adjPairs_cons_cons {α : Type} (x y : α) (l : List α) :
    adjPairs (x :: y :: l) = (x, y) :: adjPairs (y :: l) := rfl

theorem mem_adjPairs {α : Type} : ∀ {l : List α} {p : α × α},
    p ∈ adjPairs l → p.1 ∈ l ∧ p.2 ∈ l
  | [], p, h => by simp [adjPairs] at h
  | [_], p, h => by simp [adjPairs] at h
  | x :: y :: rest, p, h => by
    rw [adjPairs_cons_cons] at h
    rcases List.mem_cons.mp h with h1 | h1
    · subst h1
      exact ⟨List.mem_cons_self _ _, List.mem_cons_of_mem _ (List.mem_cons_self _ _)⟩
    · have := mem_adjPairs h1
      exact ⟨List.mem_cons_of_mem _ this.1, List.mem_cons_of_mem _ this.2⟩

theorem adjPairs_append {α : Type} (pre : List α) (a : α) (tl : List α) :
    adjPairs (pre ++ a :: tl) = adjPairs (pre ++ [a]) ++ adjPairs (a :: tl) := by
  induction pre with
  | nil => simp [adjPairs_nil, adjPairs_single]
  | cons x pre2 ih =>
    cases pre2 with
    | nil => simp [adjPairs_nil, adjPairs_single, adjPairs_cons_cons]
    | cons y rest =>
      have step : (x :: y :: rest) ++ a :: tl = x :: y :: (rest ++ a :: tl) := by simp
      have step2 : (x :: y :: rest) ++ [a] = x :: y :: (rest ++ [a]) := by simp
      rw [step, step2, adjPairs_cons_cons, adjPairs_cons_cons]
      have ih2 : adjPairs (y :: (rest ++ a :: tl)) =
          adjPairs (y :: (rest ++ [a])) ++ adjPairs (a :: tl) := by
        have := ih
        simpa using this
      simp [ih2]

theorem mem_meterIntervalRows {pd : ℤ} {pv : ℚ} {d : ℤ} {v : ℚ} {r : ℤ × ℚ}
    (h : r ∈ meterIntervalRows pd pv d v) :
    pd < r.1 ∧ r.1 ≤ d ∧ r.2 = sqlRound3 ((v - pv) / ((max (d - pd) 1 : ℤ) : ℚ)) := by
  unfold meterIntervalRows at h
  obtain ⟨k, hk, hr⟩ := List.mem_map.mp h
  have hkn : (k : ℤ) < d - pd := by
    have := List.mem_range.mp hk
    omega
  subst hr
  refine ⟨by omega, by omega, rfl⟩

theorem countP_meterIntervalRows_eq_one {pd d x : ℤ} (pv v : ℚ) (h1 : pd < x) (h2 : x ≤ d) :
    (meterIntervalRows pd pv d v).countP (fun r => decide (r.1 = x)) = 1 := by
  unfold meterIntervalRows
  rw [List.countP_map]
  have hcongr : ∀ k ∈ List.range (d - pd).toNat,
      ((fun r : ℤ × ℚ => decide (r.1 = x)) ∘ (fun k : ℕ =>
        ((pd + 1 + (k : ℤ),
          sqlRound3 ((v - pv) / ((max (d - pd) 1 : ℤ) : ℚ))) : ℤ × ℚ))) k =
      decide (k = (x - pd - 1).toNat) := by
    intro k hk
    simp only [Function.comp_apply, decide_eq_decide]
    omega
  rw [List.countP_eq_length_filter, List.filter_congr hcongr, List.filter_eq]
  have hmem : (x - pd - 1).toNat ∈ List.range (d - pd).toNat := by
    rw [List.mem_range]
    omega
  rw [List.count_eq_one_of_mem (List.nodup_range _) hmem]
  simp

theorem countP_meterDaily_eq_zero_of_lt {reads : List MeterFact} {x : ℤ}
    (h : ∀ f ∈ reads, f.day < x) :
    (meterDaily reads).countP (fun r => decide (r.1 = x)) = 0 := by
  rw [List.countP_eq_zero]
  intro r hr
  obtain ⟨p, hp, hrp⟩ := List.mem_flatMap.mp hr
  have hb := mem_meterIntervalRows hrp
  have := h p.2 (mem_adjPairs hp).2
  simp only [decide_eq_true_eq]
  omega

theorem countP_meterDaily_eq_zero_of_le {reads : List MeterFact} {x : ℤ}
    (h : ∀ f ∈ reads, x ≤ f.day) :
    (meterDaily reads).countP (fun r => decide (r.1 = x)) = 0 := by
  rw [List.countP_eq_zero]
  intro r hr
  obtain ⟨p, hp, hrp⟩ := List.mem_flatMap.mp hr
  have hb := mem_meterIntervalRows hrp
  have := h p.1 (mem_adjPairs hp).1
  simp only [decide_eq_true_eq]
  omega

theorem sum_meterIntervalRows (pd : ℤ) (pv : ℚ) (d : ℤ) (v : ℚ) :
    ((meterIntervalRows pd pv d v).map Prod.snd).sum =
      ((d - pd).toNat : ℚ) * sqlRound3 ((v - pv) / ((max (d - pd) 1 : ℤ) : ℚ)) := by
  unfold meterIntervalRows
  rw [List.map_map]
  have : (List.range (d - pd).toNat).map (Prod.snd ∘ (fun k : ℕ =>
      ((pd + 1 + (k : ℤ),
        sqlRound3 ((v - pv) / ((max (d - pd) 1 : ℤ) : ℚ))) : ℤ × ℚ))) =
      List.replicate (d - pd).toNat (sqlRound3 ((v - pv) / ((max (d - pd) 1 : ℤ) : ℚ))) := by
    apply List.eq_replicate_iff.mpr
    constructor
    · simp
    · intro q hq
      obtain ⟨k, -, hk⟩ := List.mem_map.mp hq
      exact hk.symm
  rw [this, List.sum_replicate, nsmul_eq_mul]

theorem allowedBand_low_nonneg (u : String) (e : ℚ) (r : Option ℚ) :
    0 ≤ (allowedBand u e r).1 := by
  unfold allowedBand
  cases r with
  | none => exact le_refl 0
  | some rate => exact le_max_left 0 _

theorem allowedBand_high_le (u : String) (e : ℚ) (r : Option ℚ) :
    (allowedBand u e r).2 ≤ maxPlausibleDelta u e := by
  unfold allowedBand
  cases r with
  | none => exact le_refl _
  | some rate => exact min_le_left _ _

theorem mem_buildMeterReadVariants {raw c : ℚ} (h : c ∈ buildMeterReadVariants raw) :
    c = raw ∨ c = (((jsRound raw).tdiv 10 : ℤ) : ℚ) ∨ c = (((jsRound raw).tdiv 100 : ℤ) : ℚ) := by
  unfold buildMeterReadVariants at h
  dsimp only [] at h
  repeat' split at h
  all_goals simp only [List.mem_cons, List.mem_append, List.mem_singleton,
    List.not_mem_nil, or_false, false_or] at h
  all_goals tauto

theorem raw_mem_buildMeterReadVariants (raw : ℚ) : raw ∈ buildMeterReadVariants raw := by
  unfold buildMeterReadVariants
  dsimp only []
  repeat' split
  all_goals simp

theorem mem_scoredCandidates {prev raw lo hi maxd : ℚ} {exp : Option ℚ}
    {it : ScoredCandidate} (h : it ∈ scoredCandidates prev raw lo hi maxd exp) :
    prev ≤ it.candidate ∧ it.candidate ∈ buildMeterReadVariants raw ∧
    it.delta = it.candidate - prev ∧
    (it.withinReasonable = true ∨ it.delta ≤ maxd) := by
  unfold scoredCandidates at h
  have h2 := (List.mergeSort_perm _ _).subset h
  have h3 := List.mem_filter.mp h2
  obtain ⟨c, hc, heq⟩ := List.mem_map.mp h3.1
  have hc2 := List.mem_filter.mp hc
  have hcand : it.candidate = c := by rw [← heq]
  have hdelta : it.delta = c - prev := by rw [← heq]
  refine ⟨?_, ?_, ?_, ?_⟩
  · rw [hcand]
    exact of_decide_eq_true hc2.2
  · rw [hcand]
    exact hc2.1
  · rw [hdelta, hcand]
  · rcases Bool.or_eq_true_iff.mp h3.2 with h4 | h4
    · exact Or.inl h4
    · exact Or.inr (of_decide_eq_true h4)

theorem find?_scoredCandidates_mem {prev raw lo hi maxd : ℚ} {exp : Option ℚ}
    {rc : ScoredCandidate}
    (h : (scoredCandidates prev raw lo hi maxd exp).find?
        (fun it => decide (it.candidate = raw)) = some rc) :
    rc ∈ scoredCandidates prev raw lo hi maxd exp ∧ rc.candidate = raw := by
  refine ⟨List.mem_of_find?_eq_some h, ?_⟩
  have hp := List.find?_some h
  simpa using hp

theorem scoredCandidates_eq_nil {prev raw lo hi maxd : ℚ} {exp : Option ℚ}
    (hhi : hi ≤ maxd)
    (h : ∀ c ∈ buildMeterReadVariants raw, prev ≤ c → maxd < c - prev) :
    scoredCandidates prev raw lo hi maxd exp = [] := by
  unfold scoredCandidates
  have hfilter : (((buildMeterReadVariants raw).filter
      (fun c => decide (prev ≤ c))).map (fun c =>
        let delta := c - prev
        let withinReasonable := decide (lo ≤ delta) && decide (delta ≤ hi)
        let expectedScore := match exp with
          | some e => |delta - e|
          | none => delta
        let digitPenalty : ℚ := if c = raw then 0 else 0.01
        ScoredCandidate.mk c delta withinReasonable (expectedScore + digitPenalty)
          expectedScore)).filter
      (fun it => it.withinReasonable || decide (it.delta ≤ maxd)) = [] := by
    apply List.filter_eq_nil_iff.mpr
    intro it hit
    obtain ⟨c, hc, heq⟩ := List.mem_map.mp hit
    have hc2 := List.mem_filter.mp hc
    have hprev : prev ≤ c := of_decide_eq_true hc2.2
    have hgt : maxd < c - prev := h c hc2.1 hprev
    rw [← heq]
    simp only [Bool.or_eq_true, decide_eq_true_eq, not_or]
    constructor
    · intro hw
      have hle : c - prev ≤ hi := of_decide_eq_true (Bool.and_eq_true_iff.mp hw).2
      linarith
    · intro hle
      linarith
  rw [hfilter]
  exact List.mergeSort_nil

/-- Exhaustive case analysis of the normalizer on a non-empty history. -/
theorem normalize_cases (u : String) (latest : ReadRow) (rest : List ReadRow) (t raw : ℚ) :
    let recent := latest :: rest
    let prev := latest.reading_value
    let elapsed := max ((t - latest.captured_at) / msPerDay) (1/24)
    let maxd := maxPlausibleDelta u elapsed
    let band := allowedBand u elapsed (rollingDailyExpected recent)
    let expd := (rollingDailyExpected recent).map (fun r => r * elapsed)
    let cands := scoredCandidates prev raw band.1 band.2 maxd expd
    let res := normalizeMeterImageReadingValue u recent t raw
    (band.1 ≤ raw - prev ∧ raw - prev ≤ band.2 ∧ res = ⟨raw, none, false⟩) ∨
    (¬(band.1 ≤ raw - prev ∧ raw - prev ≤ band.2) ∧ cands = [] ∧
      res = ⟨raw, some (.reviewRequired raw prev (raw - prev) elapsed expd), true⟩) ∨
    (¬(band.1 ≤ raw - prev ∧ raw - prev ≤ band.2) ∧ ∃ best tl, cands = best :: tl ∧
      ((shouldCorrectFlag raw maxd (raw - prev) best
          (cands.find? (fun it => decide (it.candidate = raw))) = true ∧
        res = ⟨best.candidate, some (.corrected raw best.candidate prev elapsed u), false⟩) ∨
       (shouldCorrectFlag raw maxd (raw - prev) best
          (cands.find? (fun it => decide (it.candidate = raw))) = false ∧
        res = ⟨raw, none, false⟩))) := by
  intro recent prev elapsed maxd band expd cands res
  by_cases hband : band.1 ≤ raw - prev ∧ raw - prev ≤ band.2
  · left
    refine ⟨hband.1, hband.2, ?_⟩
    show normalizeMeterImageReadingValue u (latest :: rest) t raw = _
    unfold normalizeMeterImageReadingValue
    dsimp only []
    rw [if_pos hband]
  · rcases hcands : cands with _ | ⟨best, tl⟩
    · right; left
      refine ⟨hband, rfl, ?_⟩
      show normalizeMeterImageReadingValue u (latest :: rest) t raw = _
      unfold normalizeMeterImageReadingValue
      dsimp only []
      rw [if_neg hband]
      have hc2 : scoredCandidates prev raw band.1 band.2 maxd expd = [] := hcands
      rw [hc2]
    · right; right
      refine ⟨hband, best, tl, rfl, ?_⟩
      have hc2x := hcands
      have hc2 : scoredCandidates prev raw band.1 band.2 maxd expd = best :: tl := hcands
      by_cases hsc : shouldCorrectFlag raw maxd (raw - prev) best
          ((best :: tl).find? (fun it => decide (it.candidate = raw))) = true
      · left
        refine ⟨hsc, ?_⟩
        show normalizeMeterImageReadingValue u (latest :: rest) t raw = _
        unfold normalizeMeterImageReadingValue
        dsimp only []
        rw [if_neg hband, hc2]
        dsimp only []
        rw [if_pos hsc]
      · right
        have hscf := eq_false_of_ne_true hsc
        refine ⟨hscf, ?_⟩
        show normalizeMeterImageReadingValue u (latest :: rest) t raw = _
        unfold normalizeMeterImageReadingValue
        dsimp only []
        rw [if_neg hband, hc2]
        dsimp only []
        rw [if_neg (by rw [hscf]; exact Bool.false_ne_true)]

theorem shouldCorrectFlag_false_cases {raw maxd d : ℚ} {best : ScoredCandidate}
    {l : List ScoredCandidate}
    (h : shouldCorrectFlag raw maxd d best
      (l.find? (fun it => decide (it.candidate = raw))) = false) :
    best.candidate = raw ∨ ∃ rc ∈ l, rc.candidate = raw := by
  unfold shouldCorrectFlag at h
  rcases hf : l.find? (fun it => decide (it.candidate = raw)) with _ | rc
  · rw [hf] at h
    simp only [Bool.and_eq_false_iff, decide_eq_false_iff_not, not_not] at h
    rcases h with h | h
    · exact Or.inl h
    · simp at h
  · right
    refine ⟨rc, List.mem_of_find?_eq_some hf, ?_⟩
    have hp := List.find?_some hf
    simpa using hp

theorem shouldCorrectFlag_true_cases {raw maxd d : ℚ} {best : ScoredCandidate}
    {l : List ScoredCandidate}
    (h : shouldCorrectFlag raw maxd d best
      (l.find? (fun it => decide (it.candidate = raw))) = true) :
    best.candidate ≠ raw ∧
    (l.find? (fun it => decide (it.candidate = raw)) = none ∨
     (∃ rc, l.find? (fun it => decide (it.candidate = raw)) = some rc ∧
        best.expectedScore < rc.expectedScore * 0.25) ∨ maxd < d) := by
  unfold shouldCorrectFlag at h
  rw [Bool.and_eq_true] at h
  refine ⟨of_decide_eq_true h.1, ?_⟩
  rcases hf : l.find? (fun it => decide (it.candidate = raw)) with _ | rc
  · exact Or.inl hf
  · rw [hf] at h
    have h2 := h.2
    simp only [Bool.or_eq_true, decide_eq_true_eq] at h2
    rcases h2 with h2 | h2
    · exact Or.inr (Or.inl ⟨rc, hf, h2⟩)
    · exact Or.inr (Or.inr h2)

theorem billedRemovalRecord_isSome_iff (meterReads : List ExtractedEntry)
    (billed : ExtractedEntry) :
    (billedRemovalRecord meterReads billed).isSome = true ↔
      (2 ≤ (qualifyingMeterReads meterReads billed).length ∧
       ∃ opening closing,
         ((qualifyingMeterReads meterReads billed).mergeSort
           (fun a b => decide (a.captured_at ≤ b.captured_at))).head? = some opening ∧
         ((qualifyingMeterReads meterReads billed).mergeSort
           (fun a b => decide (a.captured_at ≤ b.captured_at))).getLast? = some closing ∧
         0 ≤ closing.reading_value - opening.reading_value ∧
         nearlyEqual billed.reading_value
           (closing.reading_value - opening.reading_value) = true) := by
  unfold billedRemovalRecord
  dsimp only []
  split
  case isTrue hlen =>
    rcases hh : ((qualifyingMeterReads meterReads billed).mergeSort
        (fun a b => decide (a.captured_at ≤ b.captured_at))).head? with _ | o
    · simp
    · rcases hg : ((qualifyingMeterReads meterReads billed).mergeSort
          (fun a b => decide (a.captured_at ≤ b.captured_at))).getLast? with _ | c
      · simp
      · dsimp only []
        split
        case isTrue hcond =>
          simp only [Option.isSome_some, true_iff]
          exact ⟨hlen, o, c, rfl, rfl, hcond.1, hcond.2⟩
        case isFalse hcond =>
          constructor
          · intro h
            simp at h
          · rintro ⟨-, o2, c2, ho2, hc2, hpos, hne⟩
            rw [Option.some.injEq] at ho2 hc2
            subst ho2
            subst hc2
            exact absurd ⟨hpos, hne⟩ hcond
  case isFalse hlen =>
    constructor
    · intro h
      simp at h
    · rintro ⟨h2, -⟩
      exact absurd h2 hlen

theorem billedRemovalRecord_reason_ne {meterReads : List ExtractedEntry}
    {billed : ExtractedEntry} {rec : BillDedupeRemoval}
    (h : billedRemovalRecord meterReads billed = some rec) : rec.reason ≠ "" := by
  unfold billedRemovalRecord at h
  dsimp only [] at h
  split at h
  · split at h
    · split at h
      · rw [Option.some.injEq] at h
        intro hempty
        have hlen := congrArg String.length hempty
        rw [← h] at hlen
        simp only [String.length_append] at hlen
        have h21 : ("Matches meter delta (" : String).length = 21 := by decide
        have h0 : ("" : String).length = 0 := by decide
        omega
      · exact absurd h (by simp)
    · exact absurd h (by simp)
  · exact absurd h (by simp)

/-- The qualifying reads of a billed entry, starting from the full entry
batch: the meter_read filter composed with the matching filter. -/
theorem qualifyingMeterReads_from_entries (entries : List ExtractedEntry)
    (billed : ExtractedEntry) :
    qualifyingMeterReads (entries.filter (fun e => decide (e.entry_type = "meter_read")))
      billed =
    entries.filter (fun m =>
      decide (m.entry_type = "meter_read") &&
      decide (m.utility_type = billed.utility_type) &&
      decide (asciiLower m.reading_unit = asciiLower billed.reading_unit) &&
      decide (jsOrNull m.bill_id = jsOrNull billed.bill_id)) := by
  unfold qualifyingMeterReads
  rw [List.filter_filter]
  apply List.filter_congr
  intro m _
  cases h1 : decide (m.entry_type = "meter_read") <;>
    cases h2 : decide (m.utility_type = billed.utility_type) <;>
    cases h3 : decide (asciiLower m.reading_unit = asciiLower billed.reading_unit) <;>
    cases h4 : decide (jsOrNull m.bill_id = jsOrNull billed.bill_id) <;> rfl

theorem normalizeMeterIdentifier_digits (v : String) :
    (normalizeMeterIdentifier v).data.all Char.isDigit = true := by
  unfold normalizeMeterIdentifier
  simp only [List.all_eq_true]
  intro c hc
  exact (List.mem_filter.mp hc).2

theorem uniqueNormalized_foldl (values : List String) :
    ∀ acc : List String, acc.Nodup →
      ((values.foldl (fun acc value =>
        if value = "" then acc
        else
          if normalizeMeterIdentifier value = "" ∨ normalizeMeterIdentifier value ∈ acc then
            acc
          else acc ++ [normalizeMeterIdentifier value]) acc).Nodup ∧
      (∀ s, s ∈ values.foldl (fun acc value =>
        if value = "" then acc
        else
          if normalizeMeterIdentifier value = "" ∨ normalizeMeterIdentifier value ∈ acc then
            acc
          else acc ++ [normalizeMeterIdentifier value]) acc ↔
        (s ∈ acc ∨ (s ≠ "" ∧ ∃ v ∈ values, v ≠ "" ∧ normalizeMeterIdentifier v = s)))) := by
  induction values with
  | nil =>
    intro acc hacc
    refine ⟨hacc, ?_⟩
    intro s
    simp
  | cons v vs ih =>
    intro acc hacc
    rw [List.foldl_cons]
    by_cases hv : v = ""
    · rw [if_pos hv]
      obtain ⟨hnd, hiff⟩ := ih acc hacc
      refine ⟨hnd, ?_⟩
      intro s
      rw [hiff s]
      simp only [List.mem_cons]
      constructor
      · rintro (hs | ⟨hne, v2, hv2, hvne, hnorm⟩)
        · exact Or.inl hs
        · exact Or.inr ⟨hne, v2, Or.inr hv2, hvne, hnorm⟩
      · rintro (hs | ⟨hne, v2, (rfl | hv2), hvne, hnorm⟩)
        · exact Or.inl hs
        · exact absurd hv hvne
        · exact Or.inr ⟨hne, v2, hv2, hvne, hnorm⟩
    · rw [if_neg hv]
      by_cases hn : normalizeMeterIdentifier v = "" ∨ normalizeMeterIdentifier v ∈ acc
      · rw [if_pos hn]
        obtain ⟨hnd, hiff⟩ := ih acc hacc
        refine ⟨hnd, ?_⟩
        intro s
        rw [hiff s]
        simp only [List.mem_cons]
        constructor
        · rintro (hs | ⟨hne, v2, hv2, hvne, hnorm⟩)
          · exact Or.inl hs
          · exact Or.inr ⟨hne, v2, Or.inr hv2, hvne, hnorm⟩
        · rintro (hs | ⟨hne, v2, (rfl | hv2), hvne, hnorm⟩)
          · exact Or.inl hs
          · rcases hn with hn | hn
            · exact absurd (hn ▸ hnorm.symm) hne
            · exact Or.inl (hnorm ▸ hn)
          · exact Or.inr ⟨hne, v2, hv2, hvne, hnorm⟩
      · rw [if_neg hn]
        push_neg at hn
        have hnd2 : (acc ++ [normalizeMeterIdentifier v]).Nodup := by
          rw [List.nodup_append]
          exact ⟨hacc, List.nodup_singleton _, by
            intro a ha hb
            rw [List.mem_singleton] at hb
            exact hn.2 (hb ▸ ha)⟩
        obtain ⟨hnd, hiff⟩ := ih (acc ++ [normalizeMeterIdentifier v]) hnd2
        refine ⟨hnd, ?_⟩
        intro s
        rw [hiff s]
        simp only [List.mem_append, List.mem_singleton, List.mem_cons, List.not_mem_nil,
          or_false]
        constructor
        · rintro ((hs | rfl) | ⟨hne, v2, hv2, hvne, hnorm⟩)
          · exact Or.inl hs
          · exact Or.inr ⟨hn.1, v, Or.inl rfl, hv, rfl⟩
          · exact Or.inr ⟨hne, v2, Or.inr hv2, hvne, hnorm⟩
        · rintro (hs | ⟨hne, v2, (rfl | hv2), hvne, hnorm⟩)
          · exact Or.inl (Or.inl hs)
          · exact Or.inl (Or.inr hnorm.symm)
          · exact Or.inr ⟨hne, v2, hv2, hvne, hnorm⟩

theorem uniqueNormalizedMeterIdCandidates_spec (values : List String) :
    (uniqueNormalizedMeterIdCandidates values).Nodup ∧
    (∀ s, s ∈ uniqueNormalizedMeterIdCandidates values ↔
      (s ≠ "" ∧ ∃ v ∈ values, v ≠ "" ∧ normalizeMeterIdentifier v = s)) := by
  have h := uniqueNormalized_foldl values [] (List.nodup_nil)
  unfold uniqueNormalizedMeterIdCandidates
  refine ⟨h.1, ?_⟩
  intro s
  rw [(h.2 s)]
  simp

theorem matches345Format_length {s : String} (h : matches345Format s = true) :
    s.data.length = 9 := by
  unfold matches345Format at h
  simp only [Bool.and_eq_true, decide_eq_true_eq] at h
  exact h.1.1

theorem formatAffinityRank_le_of_score_le {a b : String}
    (h : meterIdScore b ≤ meterIdScore a) :
    formatAffinityRank b ≤ formatAffinityRank a := by
  unfold meterIdScore at h
  unfold formatAffinityRank
  by_cases hma : matches345Format a <;> by_cases hmb : matches345Format b <;>
    simp only [hma, hmb, if_true, if_false] at h ⊢ <;>
    split_ifs at h ⊢ <;> omega

/-! ## Claim theorems -/

/-- C10 counterexample: the unit name "constructor" has a trimmed lowercased
form that is none of coach, suite, house, yet the policy lookup does not fall
back to DEFAULT_ALLOWED: the index read finds the inherited Object.prototype
member, which is not nullish, so the utility check throws instead of
accepting electricity; "__proto__" hits the same inherited-member case. -/
theorem C10_policy_counterexample :
    asciiLower (jsTrim "constructor") ∉ (["coach", "suite", "house"] : List String) ∧
    getAllowedUtilitiesForUnitName "constructor" ≠
      .utilities ["electricity", "gas", "water"] ∧
    getAllowedUtilitiesForUnitName "constructor" = .inheritedMember ∧
    isUtilityAllowedForUnit "constructor" "electricity" = none ∧
    getAllowedUtilitiesForUnitName "__proto__" = .inheritedMember := by
  refine ⟨by decide, by decide, by decide, by decide, by decide⟩

/-- C10 amended: for every unit name whose trimmed, lowercased form is
neither coach, suite or house nor an Object.prototype member name,
getAllowedUtilitiesForUnitName returns all three utility types and
isUtilityAllowedForUnit accepts electricity, gas and water; at a member
name the lookup yields the inherited non-array member and the utility
check throws (none) instead of allowing the request. -/
theorem C10_default_policy_amended :
    (∀ unitName : String,
      asciiLower (jsTrim unitName) ∉ (["coach", "suite", "house"] : List String) →
      asciiLower (jsTrim unitName) ∉ objectPrototypeMemberNames →
      getAllowedUtilitiesForUnitName unitName =
        .utilities ["electricity", "gas", "water"] ∧
      isUtilityAllowedForUnit unitName "electricity" = some true ∧
      isUtilityAllowedForUnit unitName "gas" = some true ∧
      isUtilityAllowedForUnit unitName "water" = some true) ∧
    (∀ unitName utilityType : String,
      asciiLower (jsTrim unitName) ∈ objectPrototypeMemberNames →
      isUtilityAllowedForUnit unitName utilityType = none) := by
  constructor
  · intro unitName hkeys hproto
    simp only [List.mem_cons, List.mem_singleton, not_or] at hkeys
    obtain ⟨h1, h2, h3, -⟩ := hkeys
    have hall : getAllowedUtilitiesForUnitName unitName =
        .utilities ["electricity", "gas", "water"] := by
      unfold getAllowedUtilitiesForUnitName
      simp [h1, h2, h3, hproto]
    refine ⟨hall, ?_, ?_, ?_⟩ <;> simp [isUtilityAllowedForUnit, hall]
  · intro unitName utilityType hmem
    have h1 : asciiLower (jsTrim unitName) ≠ "coach" := by
      intro he; rw [he] at hmem; exact absurd hmem (by decide)
    have h2 : asciiLower (jsTrim unitName) ≠ "suite" := by
      intro he; rw [he] at hmem; exact absurd hmem (by decide)
    have h3 : asciiLower (jsTrim unitName) ≠ "house" := by
      intro he; rw [he] at hmem; exact absurd hmem (by decide)
    have hinherited : getAllowedUtilitiesForUnitName unitName = .inheritedMember := by
      unfold getAllowedUtilitiesForUnitName
      simp [h1, h2, h3, hmem]
    simp [isUtilityAllowedForUnit, hinherited]

/-- Witness for C10 amended at the unknown unit name " Garage " and at the
member name "__proto__" (reachable after lowercasing, unlike e.g. toString). -/
theorem C10_default_policy_witness :
    (getAllowedUtilitiesForUnitName " Garage " =
        .utilities ["electricity", "gas", "water"] ∧
      isUtilityAllowedForUnit " Garage " "electricity" = some true ∧
      isUtilityAllowedForUnit " Garage " "gas" = some true ∧
      isUtilityAllowedForUnit " Garage " "water" = some true) ∧
    isUtilityAllowedForUnit "__proto__" "electricity" = none :=
  ⟨C10_default_policy_amended.1 " Garage " (by decide) (by decide),
   C10_default_policy_amended.2 "__proto__" "electricity" (by decide)⟩

/-- C8 counterexample: for the water utility type the estimator returns null
even on a positive window, against the claim that null is returned only for
days ≤ 0. -/
theorem C8_water_counterexample :
    (0 : ℚ) < 5 ∧ estimateCostForBuckets "water" [] 5 = none := by
  exact ⟨by norm_num, by decide⟩

/-- C1 counterexample: two approved reads on the same calendar day form a
consecutive pair whose half-open day range is empty, so apportionment emits
no rows and the per-day sum is 0 while totalDelta is 60, far beyond any
rounding tolerance; moreover a 3 day interval with delta 10 emits rows
valued 3.333 (the quotient rounded to numeric(12,3)), not exactly
totalDelta / daysBetween = 10 / 3. -/
theorem C1_apportionment_counterexample :
    meterDaily [⟨0, 100⟩, ⟨0, 160⟩] = [] ∧
    ((meterIntervalRows 0 100 0 160).map Prod.snd).sum = 0 ∧
    (160 : ℚ) - 100 = 60 ∧ ¬(|(0 : ℚ) - 60| ≤ 1) ∧
    meterIntervalRows 0 0 3 10 =
      [(1, 3333/1000), (2, 3333/1000), (3, 3333/1000)] ∧
    (3333/1000 : ℚ) ≠ 10 / 3 := by
  refine ⟨?_, ?_, by norm_num, by norm_num, ?_, by norm_num⟩
  · simp [meterDaily, adjPairs_cons_cons, adjPairs_single, meterIntervalRows]
  · simp [meterIntervalRows]
  · have h3 : ((3 : ℤ) - 0).toNat = 3 := by decide
    have hval : sqlRound3 (((10 : ℚ) - 0) / ((max ((3 : ℤ) - 0) 1 : ℤ) : ℚ)) = 3333/1000 := by
      have hmax : (max ((3 : ℤ) - 0) 1 : ℤ) = 3 := by norm_num
      rw [hmax]
      norm_num [sqlRound3]
    unfold meterIntervalRows
    rw [h3, hval]
    norm_num [List.range_succ]

/-- C1 (amended): for every consecutive pair of approved meter_read rows of a
chronologically ordered partition, the daily series contains exactly one row
per calendar day in the half-open range between the two days, each valued
totalDelta / daysBetween rounded to numeric(12,3) with
daysBetween = max(day difference, 1); the per-day values of the interval sum
to dayDifference times that rounded value, which reconstructs totalDelta to
within daysBetween times 0.0005 whenever the two reads fall on different
calendar days (a same-day pair emits no rows); and a pair with delta 30 over
10 days yields 10 rows of 3.0 each. -/
theorem C1_meter_interval_apportionment :
    (∀ (pre post : List MeterFact) (a b : MeterFact) (reads : List MeterFact),
      reads = pre ++ a :: b :: post →
      List.Chain' (fun x y => x.day ≤ y.day) reads →
      (∀ x : ℤ, a.day < x → x ≤ b.day →
        (meterDaily reads).countP (fun r => decide (r.1 = x)) = 1 ∧
        ∀ r ∈ meterDaily reads, r.1 = x →
          r.2 = sqlRound3 ((b.reading_value - a.reading_value) /
            ((max (b.day - a.day) 1 : ℤ) : ℚ))) ∧
      ((meterIntervalRows a.day a.reading_value b.day b.reading_value).map Prod.snd).sum =
        ((b.day - a.day).toNat : ℚ) *
          sqlRound3 ((b.reading_value - a.reading_value) /
            ((max (b.day - a.day) 1 : ℤ) : ℚ)) ∧
      (a.day < b.day →
        |((meterIntervalRows a.day a.reading_value b.day b.reading_value).map
            Prod.snd).sum - (b.reading_value - a.reading_value)| ≤
          ((max (b.day - a.day) 1 : ℤ) : ℚ) * (1/2000))) ∧
    meterIntervalRows 0 100 10 130 =
      (List.range 10).map (fun (k : ℕ) => (((k : ℤ) + 1 : ℤ), (3 : ℚ))) := by
  constructor
  · intro pre post a b reads hreads hchain
    have htrans : IsTrans MeterFact (fun x y => x.day ≤ y.day) :=
      ⟨fun _ _ _ h1 h2 => le_trans h1 h2⟩
    have hpw : List.Pairwise (fun x y : MeterFact => x.day ≤ y.day) reads :=
      (@List.chain'_iff_pairwise _ _ htrans _).mp hchain
    subst hreads
    rw [List.pairwise_append] at hpw
    obtain ⟨hpre, hmid, hcross⟩ := hpw
    rw [List.pairwise_cons] at hmid
    obtain ⟨hamid, hmid2⟩ := hmid
    rw [List.pairwise_cons] at hmid2
    obtain ⟨hbmid, -⟩ := hmid2
    have hab : a.day ≤ b.day := hamid b (List.mem_cons_self _ _)
    have hsplit : meterDaily (pre ++ a :: b :: post) =
        meterDaily (pre ++ [a]) ++
          (meterIntervalRows a.day a.reading_value b.day b.reading_value ++
            meterDaily (b :: post)) := by
      unfold meterDaily
      rw [adjPairs_append pre a (b :: post), List.flatMap_append, adjPairs_cons_cons,
        List.flatMap_cons]
    refine ⟨?_, sum_meterIntervalRows _ _ _ _, ?_⟩
    · intro x hax hxb
      constructor
      · rw [hsplit, List.countP_append, List.countP_append]
        have hleft : (meterDaily (pre ++ [a])).countP (fun r => decide (r.1 = x)) = 0 := by
          apply countP_meterDaily_eq_zero_of_lt
          intro f hf
          rcases List.mem_append.mp hf with hf1 | hf1
          · have : f.day ≤ a.day := hcross f hf1 a (List.mem_cons_self _ _)
            omega
          · have : f = a := List.mem_singleton.mp hf1
            subst this
            omega
        have hmidc : (meterIntervalRows a.day a.reading_value b.day
            b.reading_value).countP (fun r => decide (r.1 = x)) = 1 :=
          countP_meterIntervalRows_eq_one _ _ hax hxb
        have hright : (meterDaily (b :: post)).countP (fun r => decide (r.1 = x)) = 0 := by
          apply countP_meterDaily_eq_zero_of_le
          intro f hf
          rcases List.mem_cons.mp hf with hf1 | hf1
          · subst hf1
            omega
          · have : b.day ≤ f.day := hbmid f hf1
            omega
        omega
      · intro r hr hrx
        rw [hsplit] at hr
        rcases List.mem_append.mp hr with hr1 | hr1
        · exfalso
          obtain ⟨p, hp, hrp⟩ := List.mem_flatMap.mp hr1
          have hb := mem_meterIntervalRows hrp
          have hmem := (mem_adjPairs hp).2
          rcases List.mem_append.mp hmem with hf1 | hf1
          · have : p.2.day ≤ a.day := hcross p.2 hf1 a (List.mem_cons_self _ _)
            omega
          · have heq : p.2 = a := List.mem_singleton.mp hf1
            have : p.2.day = a.day := by rw [heq]
            omega
        rcases List.mem_append.mp hr1 with hr2 | hr2
        · exact (mem_meterIntervalRows hr2).2.2
        · exfalso
          obtain ⟨p, hp, hrp⟩ := List.mem_flatMap.mp hr2
          have hb := mem_meterIntervalRows hrp
          have hmem := (mem_adjPairs hp).1
          rcases List.mem_cons.mp hmem with hf1 | hf1
          · have : p.1.day = b.day := by rw [hf1]
            omega
          · have : b.day ≤ p.1.day := hbmid p.1 hf1
            omega
    · intro hlt
      rw [sum_meterIntervalRows]
      have hmax : (max (b.day - a.day) 1 : ℤ) = b.day - a.day := by omega
      have htn : ((b.day - a.day).toNat : ℚ) = ((b.day - a.day : ℤ) : ℚ) := by
        have : ((b.day - a.day).toNat : ℤ) = b.day - a.day := by omega
        exact_mod_cast congrArg (fun z : ℤ => (z : ℚ)) this
      rw [hmax, htn]
      set n : ℚ := ((b.day - a.day : ℤ) : ℚ) with hn
      set q : ℚ := (b.reading_value - a.reading_value) / n with hq
      have hnpos : 0 < n := by
        rw [hn]
        have hz : (0 : ℤ) < b.day - a.day := by omega
        exact_mod_cast hz
      have herr := abs_sqlRound3_sub_le q
      have hqn : n * q = b.reading_value - a.reading_value := by
        rw [hq]
        field_simp
      calc |n * sqlRound3 q - (b.reading_value - a.reading_value)|
          = |n * (sqlRound3 q - q)| := by rw [mul_sub, hqn]
        _ = n * |sqlRound3 q - q| := by
            rw [abs_mul, abs_of_pos hnpos]
        _ ≤ n * (1/2000) := by
            exact mul_le_mul_of_nonneg_left herr (le_of_lt hnpos)
  · have h10 : ((10 : ℤ) - 0).toNat = 10 := by decide
    have hval : sqlRound3 (((130 : ℚ) - 100) / ((max ((10 : ℤ) - 0) 1 : ℤ) : ℚ)) = 3 := by
      have hmax : (max ((10 : ℤ) - 0) 1 : ℤ) = 10 := by norm_num
      rw [hmax]
      norm_num [sqlRound3]
    unfold meterIntervalRows
    rw [h10, hval]
    apply List.map_congr_left
    intro k hk
    simp only [Prod.mk.injEq]
    refine ⟨by omega, by trivial⟩

/-- Witness for C1 at the pair of facts on days 0 and 10 and the day 5. -/
theorem C1_meter_interval_witness :
    ([⟨0, 100⟩, ⟨10, 130⟩] : List MeterFact) = [] ++ ⟨0, 100⟩ :: ⟨10, 130⟩ :: [] ∧
    List.Chain' (fun x y : MeterFact => x.day ≤ y.day) [⟨0, 100⟩, ⟨10, 130⟩] ∧
    ((0 : ℤ) < 5 ∧ (5 : ℤ) ≤ 10) ∧
    (meterDaily [⟨0, 100⟩, ⟨10, 130⟩]).countP (fun r => decide (r.1 = 5)) = 1 :=
  ⟨rfl, by rw [List.chain'_cons]; exact ⟨by norm_num, List.chain'_singleton _⟩,
    ⟨by norm_num, by norm_num⟩,
    ((C1_meter_interval_apportionment.1 [] [] ⟨0, 100⟩ ⟨10, 130⟩ _ rfl
      (by rw [List.nil_append, List.chain'_cons]
          exact ⟨by norm_num, List.chain'_singleton _⟩)).1
      5 (by norm_num) (by norm_num)).1⟩

/-- C2 counterexample: with a single prior read at time 0 and a capture six
hours later, elapsed days is 1/4, but the absolute ceiling the normalizer
computes is 250 × max(1/4, 1) = 250, not 250 × 1/4 = 62.5 as claimed. -/
theorem C2_max_plausible_counterexample :
    max ((21600000 - (0 : ℚ)) / msPerDay) (1/24) = 1/4 ∧
    maxPlausibleDelta "electricity" (1/4) = 250 ∧
    getMaxReasonableDailyUsage "electricity" * (1/4) = 125/2 ∧
    (250 : ℚ) ≠ 125/2 := by
  refine ⟨?_, ?_, ?_, by norm_num⟩
  · rw [show (21600000 - (0:ℚ)) / msPerDay = 1/4 by norm_num [msPerDay]]
    rw [max_eq_left (by norm_num)]
  · unfold maxPlausibleDelta
    rw [max_eq_right (by norm_num)]
    norm_num [getMaxReasonableDailyUsage]
  · norm_num [getMaxReasonableDailyUsage]

/-- C2 (amended): the per-utility ceilings are 250, 80 and 20; elapsed days
is floored at 1/24; the absolute ceiling is ceilingPerDay × max(elapsedDays,
1); with no historical rate any raw delta in [0, maxPlausibleDelta] is
accepted unchanged, and with a historical weighted rate any raw delta in
[max(0, expectedDelta − tolerance), min(maxPlausibleDelta, expectedDelta +
tolerance)] with tolerance = max(0.75 × expectedDelta, expectedDailyRate, 2)
is accepted unchanged. -/
theorem C2_plausibility_band (utilityType : String) (latest : ReadRow) (rest : List ReadRow)
    (capturedAtMs rawValue : ℚ) :
    (getMaxReasonableDailyUsage "electricity" = 250 ∧
      getMaxReasonableDailyUsage "gas" = 80 ∧
      getMaxReasonableDailyUsage "water" = 20) ∧
    (let elapsedDays := max ((capturedAtMs - latest.captured_at) / msPerDay) (1/24)
     let maxPlausible := getMaxReasonableDailyUsage utilityType * max elapsedDays 1
     let rawDelta := rawValue - latest.reading_value
     (rollingDailyExpected (latest :: rest) = none →
        0 ≤ rawDelta → rawDelta ≤ maxPlausible →
        normalizeMeterImageReadingValue utilityType (latest :: rest) capturedAtMs rawValue =
          ⟨rawValue, none, false⟩) ∧
     (∀ rate, rollingDailyExpected (latest :: rest) = some rate →
        (let expectedDelta := rate * elapsedDays
         let tolerance := max (max (expectedDelta * 0.75) rate) 2
         max 0 (expectedDelta - tolerance) ≤ rawDelta →
         rawDelta ≤ min maxPlausible (expectedDelta + tolerance) →
         normalizeMeterImageReadingValue utilityType (latest :: rest) capturedAtMs rawValue =
           ⟨rawValue, none, false⟩))) := by
  refine ⟨⟨by decide, by decide, by decide⟩, ?_, ?_⟩
  · intro hnone h1 h2
    unfold normalizeMeterImageReadingValue
    dsimp only []
    rw [hnone]
    dsimp only [allowedBand]
    rw [if_pos ⟨h1, h2⟩]
  · intro rate hrate expectedDelta tolerance h1 h2
    unfold normalizeMeterImageReadingValue
    dsimp only []
    rw [hrate]
    dsimp only [allowedBand, maxPlausibleDelta]
    rw [if_pos ⟨h1, h2⟩]

/-- Witness for C2 at Scenario B: previous read 1000 at day 0, new read 1005
ten days later is accepted unchanged. -/
theorem C2_plausibility_band_witness :
    rollingDailyExpected [⟨0, 1000⟩] = none ∧
    (0 : ℚ) ≤ 1005 - 1000 ∧
    (1005 : ℚ) - 1000 ≤ getMaxReasonableDailyUsage "electricity" *
      max (max ((864000000 - (0 : ℚ)) / msPerDay) (1/24)) 1 ∧
    normalizeMeterImageReadingValue "electricity" [⟨0, 1000⟩] 864000000 1005 =
      ⟨1005, none, false⟩ := by
  have hnone : rollingDailyExpected [(⟨0, 1000⟩ : ReadRow)] = none := by
    norm_num [rollingDailyExpected, weightedRates]
  have h1 : (0 : ℚ) ≤ 1005 - 1000 := by norm_num
  have h2 : (1005 : ℚ) - 1000 ≤ getMaxReasonableDailyUsage "electricity" *
      max (max ((864000000 - (0 : ℚ)) / msPerDay) (1/24)) 1 := by
    rw [show (864000000 - (0:ℚ)) / msPerDay = 10 by norm_num [msPerDay],
      max_eq_left (by norm_num), max_eq_left (by norm_num)]
    norm_num [getMaxReasonableDailyUsage]
  exact ⟨hnone, h1, h2,
    (C2_plausibility_band "electricity" ⟨0, 1000⟩ [] 864000000 1005).2.1 hnone h1 h2⟩

/-- C3: on a non-empty history every normalization that is not flagged
returns a value at least the immediately preceding value, and every scored
digit-correction candidate is at least the previous value and is the raw
value or a one- or two-trailing-digit truncation of it. -/
theorem C3_non_decreasing_invariant :
    (∀ (utilityType : String) (latest : ReadRow) (rest : List ReadRow) (t raw : ℚ),
      (normalizeMeterImageReadingValue utilityType (latest :: rest) t raw).flagged = false →
      latest.reading_value ≤
        (normalizeMeterImageReadingValue utilityType (latest :: rest) t raw).readingValue) ∧
    (∀ (prev raw lo hi maxd : ℚ) (exp : Option ℚ),
      ∀ it ∈ scoredCandidates prev raw lo hi maxd exp,
        prev ≤ it.candidate ∧
        (it.candidate = raw ∨ it.candidate = (((jsRound raw).tdiv 10 : ℤ) : ℚ) ∨
          it.candidate = (((jsRound raw).tdiv 100 : ℤ) : ℚ))) := by
  constructor
  · intro utilityType latest rest t raw hflag
    rcases normalize_cases utilityType latest rest t raw with
      ⟨hlo, hhi, hres⟩ | ⟨hband, hnil, hres⟩ | ⟨hband, best, tl, hcands, hcase⟩
    · rw [hres]
      have h0 := allowedBand_low_nonneg utilityType
        (max ((t - latest.captured_at) / msPerDay) (1/24))
        (rollingDailyExpected (latest :: rest))
      simp only []
      linarith
    · rw [hres] at hflag
      simp at hflag
    · rcases hcase with ⟨hsc, hres⟩ | ⟨hsc, hres⟩
      · rw [hres]
        have hmem := hcands ▸ List.mem_cons_self best tl
        exact (mem_scoredCandidates hmem).1
      · rw [hres]
        rcases shouldCorrectFlag_false_cases hsc with hbr | ⟨rc, hrcmem, hrceq⟩
        · have hmem := hcands ▸ List.mem_cons_self best tl
          have hple := (mem_scoredCandidates hmem).1
          rw [hbr] at hple
          simpa using hple
        · have hple := (mem_scoredCandidates hrcmem).1
          rw [hrceq] at hple
          simpa using hple
  · intro prev raw lo hi maxd exp it hit
    have h := mem_scoredCandidates hit
    exact ⟨h.1, mem_buildMeterReadVariants h.2.1⟩

/-- Witness for C3 at Scenario B: the accepted value 1005 is at least the
previous value 1000. -/
theorem C3_non_decreasing_witness :
    (normalizeMeterImageReadingValue "electricity" [⟨0, 1000⟩] 864000000 1005).flagged = false ∧
    (⟨0, 1000⟩ : ReadRow).reading_value ≤
      (normalizeMeterImageReadingValue "electricity" [⟨0, 1000⟩] 864000000 1005).readingValue := by
  have hf : (normalizeMeterImageReadingValue "electricity" [⟨0, 1000⟩]
      864000000 1005).flagged = false := by
    norm_num [normalizeMeterImageReadingValue, rollingDailyExpected, weightedRates, msPerDay,
      allowedBand, maxPlausibleDelta, getMaxReasonableDailyUsage, jsRound]
  exact ⟨hf, C3_non_decreasing_invariant.1 "electricity" ⟨0, 1000⟩ [] 864000000 1005 hf⟩

/-- C4: Scenario A corrects the raw photo reading 11050 to 1105 with a
non-null correction note and no flag; in general every scored candidate is
the raw value or a one- or two-trailing-digit truncation kept only when at
least the previous value, and a corrected candidate wins only when it
differs from the raw value and either no in-range raw score exists, or the
corrected score is below 25% of the raw score, or the raw delta exceeds the
absolute ceiling. -/
theorem C4_digit_error_correction :
    (normalizeMeterImageReadingValue "electricity" [⟨0, 1000⟩] 864000000 11050 =
      ⟨1105, some (.corrected 11050 1105 1000 10 "electricity"), false⟩) ∧
    (∀ (prev raw lo hi maxd : ℚ) (exp : Option ℚ),
      ∀ it ∈ scoredCandidates prev raw lo hi maxd exp,
        prev ≤ it.candidate ∧
        (it.candidate = raw ∨ it.candidate = (((jsRound raw).tdiv 10 : ℤ) : ℚ) ∨
          it.candidate = (((jsRound raw).tdiv 100 : ℤ) : ℚ))) ∧
    (∀ (utilityType : String) (latest : ReadRow) (rest : List ReadRow) (t raw : ℚ),
      let e := max ((t - latest.captured_at) / msPerDay) (1/24)
      let band := allowedBand utilityType e (rollingDailyExpected (latest :: rest))
      let maxd := maxPlausibleDelta utilityType e
      let cands := scoredCandidates latest.reading_value raw band.1 band.2 maxd
        ((rollingDailyExpected (latest :: rest)).map (fun r => r * e))
      (normalizeMeterImageReadingValue utilityType (latest :: rest) t raw).flagged = false →
      (normalizeMeterImageReadingValue utilityType (latest :: rest) t raw).readingValue ≠ raw →
      ∃ best tl, cands = best :: tl ∧
        (normalizeMeterImageReadingValue utilityType (latest :: rest) t raw).readingValue
          = best.candidate ∧
        best.candidate ≠ raw ∧
        (cands.find? (fun it => decide (it.candidate = raw)) = none ∨
         (∃ rc, cands.find? (fun it => decide (it.candidate = raw)) = some rc ∧
            best.expectedScore < rc.expectedScore * 0.25) ∨
         maxd < raw - latest.reading_value)) := by
  refine ⟨?_, ?_, ?_⟩
  · norm_num [normalizeMeterImageReadingValue, rollingDailyExpected, weightedRates, msPerDay,
      allowedBand, maxPlausibleDelta, getMaxReasonableDailyUsage, scoredCandidates,
      buildMeterReadVariants, jsRound, shouldCorrectFlag, List.mergeSort, Int.tdiv]
  · intro prev raw lo hi maxd exp it hit
    have h := mem_scoredCandidates hit
    exact ⟨h.1, mem_buildMeterReadVariants h.2.1⟩
  · intro utilityType latest rest t raw e band maxd cands hflag hne
    rcases normalize_cases utilityType latest rest t raw with
      ⟨hlo, hhi, hres⟩ | ⟨hband, hnil, hres⟩ | ⟨hband, best, tl, hcands, hcase⟩
    · rw [hres] at hne
      simp at hne
    · rw [hres] at hflag
      simp at hflag
    · rcases hcase with ⟨hsc, hres⟩ | ⟨hsc, hres⟩
      · have hwin := shouldCorrectFlag_true_cases hsc
        exact ⟨best, tl, hcands, by rw [hres], hwin.1, hwin.2⟩
      · rw [hres] at hne
        simp at hne

/-- Witness for C4 at the concrete candidate list of Scenario A: the single
scored candidate 1105 is at least the previous value 1000 and is the
one-trailing-digit truncation of the raw value 11050. -/
theorem C4_digit_error_witness :
    (⟨1105, 105, true, 105 + 0.01, 105⟩ : ScoredCandidate) ∈
      scoredCandidates 1000 11050 0 2500 2500 none ∧
    ((1000 : ℚ) ≤ (⟨1105, 105, true, 105 + 0.01, 105⟩ : ScoredCandidate).candidate ∧
      ((⟨1105, 105, true, 105 + 0.01, 105⟩ : ScoredCandidate).candidate = 11050 ∨
       (⟨1105, 105, true, 105 + 0.01, 105⟩ : ScoredCandidate).candidate =
         (((jsRound 11050).tdiv 10 : ℤ) : ℚ) ∨
       (⟨1105, 105, true, 105 + 0.01, 105⟩ : ScoredCandidate).candidate =
         (((jsRound 11050).tdiv 100 : ℤ) : ℚ))) := by
  have hmem : (⟨1105, 105, true, 105 + 0.01, 105⟩ : ScoredCandidate) ∈
      scoredCandidates 1000 11050 0 2500 2500 none := by
    norm_num [scoredCandidates, buildMeterReadVariants, jsRound, Int.tdiv, List.mergeSort]
  exact ⟨hmem, C4_digit_error_correction.2.1 1000 11050 0 2500 2500 none _ hmem⟩

/-- C5: whenever no digit-correction candidate clears the absolute ceiling,
the normalizer flags the reading and the meter-image ingest tail returns an
error response carrying the previous value, elapsed days, raw delta and the
optional expected delta, with no meter_reading insert and no daily-series
rebuild; Scenario C (previous 1000 at day 0, raw 50000 at day 1) does so. -/
theorem C5_flagged_review_atomicity :
    (∀ (utilityType : String) (latest : ReadRow) (rest : List ReadRow) (t raw : ℚ),
      let e := max ((t - latest.captured_at) / msPerDay) (1/24)
      (∀ c ∈ buildMeterReadVariants raw, latest.reading_value ≤ c →
        maxPlausibleDelta utilityType e < c - latest.reading_value) →
      processMeterImageTail utilityType (latest :: rest) t raw =
        (Except.error (some (NormNote.reviewRequired raw latest.reading_value
          (raw - latest.reading_value) e
          ((rollingDailyExpected (latest :: rest)).map (fun r => r * e)))), [])) ∧
    processMeterImageTail "electricity" [⟨0, 1000⟩] 86400000 50000 =
      (Except.error (some (NormNote.reviewRequired 50000 1000 49000 1 none)), []) := by
  constructor
  · intro utilityType latest rest t raw e hceil
    rcases normalize_cases utilityType latest rest t raw with
      ⟨hlo, hhi, hres⟩ | ⟨hband, hnil, hres⟩ | ⟨hband, best, tl, hcands, hcase⟩
    · exfalso
      have h0 := allowedBand_low_nonneg utilityType e (rollingDailyExpected (latest :: rest))
      have hhi2 := allowedBand_high_le utilityType e (rollingDailyExpected (latest :: rest))
      have hraw := hceil raw (raw_mem_buildMeterReadVariants raw) (by linarith)
      linarith
    · simp only [processMeterImageTail, hres]
      rfl
    · exfalso
      have hnil := @scoredCandidates_eq_nil latest.reading_value raw
        (allowedBand utilityType e (rollingDailyExpected (latest :: rest))).1
        (allowedBand utilityType e (rollingDailyExpected (latest :: rest))).2
        (maxPlausibleDelta utilityType e)
        ((rollingDailyExpected (latest :: rest)).map (fun r => r * e))
        (allowedBand_high_le utilityType e (rollingDailyExpected (latest :: rest))) hceil
      rw [hnil] at hcands
      exact List.cons_ne_nil best tl hcands.symm
  · norm_num [processMeterImageTail, normalizeMeterImageReadingValue, rollingDailyExpected,
      weightedRates, msPerDay, allowedBand, maxPlausibleDelta, getMaxReasonableDailyUsage,
      scoredCandidates, buildMeterReadVariants, jsRound, shouldCorrectFlag, List.mergeSort,
      Int.tdiv]

/-- Witness for C5 at Scenario C, through the general flagging theorem. -/
theorem C5_flagged_review_witness :
    processMeterImageTail "electricity" [⟨0, 1000⟩] 86400000 50000 =
      (Except.error (some (NormNote.reviewRequired 50000 1000 (50000 - 1000)
        (max ((86400000 - (0 : ℚ)) / msPerDay) (1/24))
        ((rollingDailyExpected [⟨0, 1000⟩]).map
          (fun r => r * max ((86400000 - (0 : ℚ)) / msPerDay) (1/24))))), []) := by
  have hceil : ∀ c ∈ buildMeterReadVariants 50000, (1000 : ℚ) ≤ c →
      maxPlausibleDelta "electricity" (max ((86400000 - (0 : ℚ)) / msPerDay) (1/24)) <
        c - 1000 := by
    intro c hc hcge
    rw [show buildMeterReadVariants 50000 = [50000, 5000, 500] from by
      norm_num [buildMeterReadVariants, jsRound, Int.tdiv]] at hc
    have hone : max ((86400000 - (0 : ℚ)) / msPerDay) (1/24) = 1 := by
      rw [show (86400000 - (0 : ℚ)) / msPerDay = 1 from by norm_num [msPerDay]]
      rw [max_eq_left (by norm_num)]
    have hmax : maxPlausibleDelta "electricity"
        (max ((86400000 - (0 : ℚ)) / msPerDay) (1/24)) = 250 := by
      rw [maxPlausibleDelta, hone, max_self]
      norm_num [getMaxReasonableDailyUsage]
    rw [hmax]
    simp only [List.mem_cons, List.mem_singleton, List.not_mem_nil, or_false] at hc
    rcases hc with rfl | rfl | rfl
    · norm_num
    · norm_num
    · linarith
  exact C5_flagged_review_atomicity.1 "electricity" ⟨0, 1000⟩ [] 86400000 50000 hceil

/-- C6: a billed_usage entry is removed exactly when at least two meter_read
entries share its utility type, lowercased reading unit and coalesced bill
id, and the earliest-to-latest delta of those reads is non-negative and
within max(1, 2% of magnitude) of the billed value; entries of other kinds
are always kept; a billed entry whose matching reads all differ in reading
unit is kept; and every removal carries a non-empty human-readable reason. -/
theorem C6_bill_deduplication (entries : List ExtractedEntry) :
    (∀ e ∈ entries, e.entry_type = "billed_usage" →
      (e ∉ (dedupeRedundantBilledUsageEntries entries).1 ↔
        (2 ≤ (entries.filter (fun m =>
            decide (m.entry_type = "meter_read") &&
            decide (m.utility_type = e.utility_type) &&
            decide (asciiLower m.reading_unit = asciiLower e.reading_unit) &&
            decide (jsOrNull m.bill_id = jsOrNull e.bill_id))).length ∧
         ∃ opening closing,
           ((entries.filter (fun m =>
              decide (m.entry_type = "meter_read") &&
              decide (m.utility_type = e.utility_type) &&
              decide (asciiLower m.reading_unit = asciiLower e.reading_unit) &&
              decide (jsOrNull m.bill_id = jsOrNull e.bill_id))).mergeSort
             (fun a b => decide (a.captured_at ≤ b.captured_at))).head? = some opening ∧
           ((entries.filter (fun m =>
              decide (m.entry_type = "meter_read") &&
              decide (m.utility_type = e.utility_type) &&
              decide (asciiLower m.reading_unit = asciiLower e.reading_unit) &&
              decide (jsOrNull m.bill_id = jsOrNull e.bill_id))).mergeSort
             (fun a b => decide (a.captured_at ≤ b.captured_at))).getLast? = some closing ∧
           0 ≤ closing.reading_value - opening.reading_value ∧
           |e.reading_value - (closing.reading_value - opening.reading_value)| ≤
             max 1 (max (max |e.reading_value|
               |closing.reading_value - opening.reading_value|) 1 * 0.02)))) ∧
    (∀ e ∈ entries, e.entry_type ≠ "billed_usage" →
      e ∈ (dedupeRedundantBilledUsageEntries entries).1) ∧
    (∀ e ∈ entries, e.entry_type = "billed_usage" →
      (∀ m ∈ entries, m.entry_type = "meter_read" → m.utility_type = e.utility_type →
        jsOrNull m.bill_id = jsOrNull e.bill_id →
        asciiLower m.reading_unit ≠ asciiLower e.reading_unit) →
      e ∈ (dedupeRedundantBilledUsageEntries entries).1) ∧
    (∀ rec ∈ (dedupeRedundantBilledUsageEntries entries).2, rec.reason ≠ "") := by
  refine ⟨?_, ?_, ?_, ?_⟩
  · intro e he hbu
    by_cases hlen : entries.length ≤ 1
    · unfold dedupeRedundantBilledUsageEntries
      rw [if_pos hlen]
      constructor
      · intro hnot
        exact absurd he hnot
      · rintro ⟨h2, -⟩
        have hfle := List.length_filter_le (fun m =>
            decide (m.entry_type = "meter_read") &&
            decide (m.utility_type = e.utility_type) &&
            decide (asciiLower m.reading_unit = asciiLower e.reading_unit) &&
            decide (jsOrNull m.bill_id = jsOrNull e.bill_id)) entries
        omega
    · unfold dedupeRedundantBilledUsageEntries
      rw [if_neg hlen]
      dsimp only []
      have hmemiff : e ∉ entries.filter (fun x =>
          !(decide (x.entry_type = "billed_usage") &&
            (billedRemovalRecord (entries.filter
              (fun y => decide (y.entry_type = "meter_read"))) x).isSome)) ↔
          (billedRemovalRecord (entries.filter
            (fun y => decide (y.entry_type = "meter_read"))) e).isSome = true := by
        rw [List.mem_filter]
        simp [he, hbu, Option.isSome_iff_ne_none]
      rw [hmemiff, billedRemovalRecord_isSome_iff, qualifyingMeterReads_from_entries]
      simp only [nearlyEqual, decide_eq_true_eq]
  · intro e he hne
    by_cases hlen : entries.length ≤ 1
    · unfold dedupeRedundantBilledUsageEntries
      rw [if_pos hlen]
      exact he
    · unfold dedupeRedundantBilledUsageEntries
      rw [if_neg hlen]
      dsimp only []
      refine List.mem_filter.mpr ⟨he, ?_⟩
      simp [hne]
  · intro e he hbu hunits
    by_cases hlen : entries.length ≤ 1
    · unfold dedupeRedundantBilledUsageEntries
      rw [if_pos hlen]
      exact he
    · unfold dedupeRedundantBilledUsageEntries
      rw [if_neg hlen]
      dsimp only []
      refine List.mem_filter.mpr ⟨he, ?_⟩
      have hq : qualifyingMeterReads
          (entries.filter (fun y => decide (y.entry_type = "meter_read"))) e = [] := by
        rw [qualifyingMeterReads_from_entries]
        apply List.filter_eq_nil_iff.mpr
        intro m hm
        simp only [Bool.and_eq_true, decide_eq_true_eq, not_and]
        intro h1 h2
        exact hunits m hm h1.1.1 h1.1.2 h2 h1.2
      have hrec : billedRemovalRecord
          (entries.filter (fun y => decide (y.entry_type = "meter_read"))) e = none := by
        unfold billedRemovalRecord
        dsimp only []
        rw [hq]
        norm_num
      simp [hrec]
  · intro rec hrec
    by_cases hlen : entries.length ≤ 1
    · unfold dedupeRedundantBilledUsageEntries at hrec
      rw [if_pos hlen] at hrec
      simp at hrec
    · unfold dedupeRedundantBilledUsageEntries at hrec
      rw [if_neg hlen] at hrec
      dsimp only [] at hrec
      obtain ⟨b, -, hb⟩ := List.mem_filterMap.mp hrec
      exact billedRemovalRecord_reason_ne hb

/-- Witness for C6 at Scenario E: a billed usage of 62 m3 against two meter
reads for the same bill id differing by 62 m3 is dropped as redundant. -/
theorem C6_bill_deduplication_witness :
    (⟨"billed_usage", "gas", 0, 62, "m3", none, none, none, some "b1", 1, ""⟩ :
        ExtractedEntry) ∈
      ([⟨"billed_usage", "gas", 0, 62, "m3", none, none, none, some "b1", 1, ""⟩,
        ⟨"meter_read", "gas", 0, 100, "m3", none, none, none, some "b1", 1, ""⟩,
        ⟨"meter_read", "gas", 1000, 162, "m3", none, none, none, some "b1", 1, ""⟩] :
        List ExtractedEntry) ∧
    (⟨"billed_usage", "gas", 0, 62, "m3", none, none, none, some "b1", 1, ""⟩ :
        ExtractedEntry) ∉
      (dedupeRedundantBilledUsageEntries
        [⟨"billed_usage", "gas", 0, 62, "m3", none, none, none, some "b1", 1, ""⟩,
         ⟨"meter_read", "gas", 0, 100, "m3", none, none, none, some "b1", 1, ""⟩,
         ⟨"meter_read", "gas", 1000, 162, "m3", none, none, none, some "b1", 1, ""⟩]).1 := by
  have hmem : (⟨"billed_usage", "gas", 0, 62, "m3", none, none, none, some "b1", 1, ""⟩ :
      ExtractedEntry) ∈
      ([⟨"billed_usage", "gas", 0, 62, "m3", none, none, none, some "b1", 1, ""⟩,
        ⟨"meter_read", "gas", 0, 100, "m3", none, none, none, some "b1", 1, ""⟩,
        ⟨"meter_read", "gas", 1000, 162, "m3", none, none, none, some "b1", 1, ""⟩] :
        List ExtractedEntry) := List.mem_cons_self _ _
  refine ⟨hmem, ?_⟩
  apply ((C6_bill_deduplication _).1 _ hmem rfl).mpr
  have hfil : ([⟨"billed_usage", "gas", 0, 62, "m3", none, none, none, some "b1", 1, ""⟩,
      ⟨"meter_read", "gas", 0, 100, "m3", none, none, none, some "b1", 1, ""⟩,
      ⟨"meter_read", "gas", 1000, 162, "m3", none, none, none, some "b1", 1, ""⟩] :
      List ExtractedEntry).filter (fun m =>
        decide (m.entry_type = "meter_read") &&
        decide (m.utility_type = (⟨"billed_usage", "gas", 0, 62, "m3", none, none, none,
          some "b1", 1, ""⟩ : ExtractedEntry).utility_type) &&
        decide (asciiLower m.reading_unit = asciiLower (⟨"billed_usage", "gas", 0, 62, "m3",
          none, none, none, some "b1", 1, ""⟩ : ExtractedEntry).reading_unit) &&
        decide (jsOrNull m.bill_id = jsOrNull (⟨"billed_usage", "gas", 0, 62, "m3", none,
          none, none, some "b1", 1, ""⟩ : ExtractedEntry).bill_id)) =
      [⟨"meter_read", "gas", 0, 100, "m3", none, none, none, some "b1", 1, ""⟩,
       ⟨"meter_read", "gas", 1000, 162, "m3", none, none, none, some "b1", 1, ""⟩] := by
    decide
  rw [hfil]
  have hsort : ([⟨"meter_read", "gas", 0, 100, "m3", none, none, none, some "b1", 1, ""⟩,
      ⟨"meter_read", "gas", 1000, 162, "m3", none, none, none, some "b1", 1, ""⟩] :
      List ExtractedEntry).mergeSort (fun a b => decide (a.captured_at ≤ b.captured_at)) =
      [⟨"meter_read", "gas", 0, 100, "m3", none, none, none, some "b1", 1, ""⟩,
       ⟨"meter_read", "gas", 1000, 162, "m3", none, none, none, some "b1", 1, ""⟩] := by
    norm_num [List.mergeSort]
  rw [hsort]
  refine ⟨by norm_num,
    ⟨"meter_read", "gas", 0, 100, "m3", none, none, none, some "b1", 1, ""⟩,
    ⟨"meter_read", "gas", 1000, 162, "m3", none, none, none, some "b1", 1, ""⟩,
    rfl, rfl, by norm_num, by norm_num⟩

/-- C9: the resolver normalizes every candidate to digits only, deduplicates
preserving first occurrence (no duplicates, membership exactly the non-empty
normalizations of the inputs), ranks candidates so that nine-digit 345
prefixed ones come first followed by plain nine-digit ones, returns the
first ranked candidate with a registry mapping together with that mapping,
and with no match returns no mapping plus the normalized primary identifier
and the full candidate list tried. -/
theorem C9_meter_identifier_resolver (ext : ExtractedMeterImage) :
    (∀ s ∈ (chooseMappedMeterIdentifier ext).tried,
      s ≠ "" ∧ s.data.all Char.isDigit = true) ∧
    (chooseMappedMeterIdentifier ext).tried.Nodup ∧
    (∀ s, s ∈ (chooseMappedMeterIdentifier ext).tried ↔
      (s ≠ "" ∧ ∃ v ∈ ext.meter_identifier ::
        (ext.meter_identifier_candidates ++ extractDigitSequences ext.evidence),
        v ≠ "" ∧ normalizeMeterIdentifier v = s)) ∧
    (chooseMappedMeterIdentifier ext).tried.Pairwise
      (fun a b => formatAffinityRank b ≤ formatAffinityRank a) ∧
    (∀ c, (chooseMappedMeterIdentifier ext).tried.find?
        (fun x => (lookupMeterIdentifier x).isSome) = some c →
      (chooseMappedMeterIdentifier ext).identifier = c ∧
      (chooseMappedMeterIdentifier ext).mapping = lookupMeterIdentifier c) ∧
    ((∀ c ∈ (chooseMappedMeterIdentifier ext).tried, lookupMeterIdentifier c = none) →
      (chooseMappedMeterIdentifier ext).mapping = none ∧
      (chooseMappedMeterIdentifier ext).identifier =
        normalizeMeterIdentifier ext.meter_identifier) := by
  have hspec := uniqueNormalizedMeterIdCandidates_spec (ext.meter_identifier ::
    (ext.meter_identifier_candidates ++ extractDigitSequences ext.evidence))
  have hperm := List.mergeSort_perm (uniqueNormalizedMeterIdCandidates
    (ext.meter_identifier ::
      (ext.meter_identifier_candidates ++ extractDigitSequences ext.evidence)))
    (fun a b => decide (meterIdScore b ≤ meterIdScore a))
  have htried : (chooseMappedMeterIdentifier ext).tried =
      (uniqueNormalizedMeterIdCandidates (ext.meter_identifier ::
        (ext.meter_identifier_candidates ++ extractDigitSequences ext.evidence))).mergeSort
        (fun a b => decide (meterIdScore b ≤ meterIdScore a)) := by
    unfold chooseMappedMeterIdentifier
    dsimp only []
    split <;> rfl
  refine ⟨?_, ?_, ?_, ?_, ?_, ?_⟩
  · intro s hs
    rw [htried] at hs
    have hmem := hperm.subset hs
    have hprops := (hspec.2 s).mp hmem
    obtain ⟨hne, v, -, -, hnorm⟩ := hprops
    exact ⟨hne, hnorm ▸ normalizeMeterIdentifier_digits v⟩
  · rw [htried]
    exact (hperm.nodup_iff).mpr hspec.1
  · intro s
    rw [htried, hperm.mem_iff]
    exact hspec.2 s
  · rw [htried]
    have hsorted := @List.sorted_mergeSort String
      (fun a b : String => decide (meterIdScore b ≤ meterIdScore a))
      (fun a b c h1 h2 =>
        decide_eq_true (le_trans (of_decide_eq_true h2) (of_decide_eq_true h1)))
      (fun a b => by
        rcases le_total (meterIdScore b) (meterIdScore a) with h | h <;>
          simp [h])
      (uniqueNormalizedMeterIdCandidates (ext.meter_identifier ::
        (ext.meter_identifier_candidates ++ extractDigitSequences ext.evidence)))
    exact hsorted.imp (fun h => formatAffinityRank_le_of_score_le (of_decide_eq_true h))
  · intro c hfind
    rw [htried] at hfind
    unfold chooseMappedMeterIdentifier
    dsimp only []
    rw [hfind]
    exact ⟨rfl, rfl⟩
  · intro hnone
    rw [htried] at hnone
    have hfind : ((uniqueNormalizedMeterIdCandidates (ext.meter_identifier ::
        (ext.meter_identifier_candidates ++ extractDigitSequences ext.evidence))).mergeSort
        (fun a b => decide (meterIdScore b ≤ meterIdScore a))).find?
        (fun x => (lookupMeterIdentifier x).isSome) = none := by
      apply List.find?_eq_none.mpr
      intro x hx
      rw [hnone x hx]
      simp
    unfold chooseMappedMeterIdentifier
    dsimp only []
    rw [hfind]
    exact ⟨rfl, rfl⟩

/-- Witness for C9: the primary identifier 345185639 resolves to the House
electricity meter mapping. -/
theorem C9_resolver_witness :
    (chooseMappedMeterIdentifier ⟨"345185639", [], ""⟩).identifier = "345185639" ∧
    (chooseMappedMeterIdentifier ⟨"345185639", [], ""⟩).mapping =
      some ⟨"House", "electricity", "kWh", "House electricity meter"⟩ := by
  have h1 : (chooseMappedMeterIdentifier ⟨"345185639", [], ""⟩).tried = ["345185639"] := by
    unfold chooseMappedMeterIdentifier
    dsimp only []
    rw [show (("345185639" : String) :: ([] ++ extractDigitSequences "")) = ["345185639"]
      from by decide]
    rw [show uniqueNormalizedMeterIdCandidates ["345185639"] = ["345185639"] from by decide]
    rw [show (["345185639"] : List String).mergeSort
        (fun a b => decide (meterIdScore b ≤ meterIdScore a)) = ["345185639"]
      from by simp [List.mergeSort]]
    split <;> rfl
  have hfind : (chooseMappedMeterIdentifier ⟨"345185639", [], ""⟩).tried.find?
      (fun x => (lookupMeterIdentifier x).isSome) = some "345185639" := by
    rw [h1]
    decide
  have h := (C9_meter_identifier_resolver ⟨"345185639", [], ""⟩).2.2.2.2.1 "345185639" hfind
  refine ⟨h.1, ?_⟩
  rw [h.2]
  decide

/-- C8 (amended): the estimator returns null when days ≤ 0 and also when the
utility type is neither electricity nor gas; for electricity it sums only the
kWh buckets into the two-tier charge with the Tier 1 threshold prorated per
day plus a basic daily charge and 5% tax; for gas it prefers billed GJ
buckets over converted meter m3 buckets when both exist and converts m3 by
the fixed estimated factor; all monetary outputs are rounded to cents. -/
theorem C8_cost_estimator_contract :
    (∀ (utilityType : String) (buckets : List UsageBucket) (days : ℚ), days ≤ 0 →
        estimateCostForBuckets utilityType buckets days = none) ∧
    (∀ (utilityType : String) (buckets : List UsageBucket) (days : ℚ),
        utilityType ≠ "electricity" → utilityType ≠ "gas" →
        estimateCostForBuckets utilityType buckets days = none) ∧
    (∀ (buckets : List UsageBucket) (days : ℚ), 0 < days →
        estimateCostForBuckets "electricity" buckets days =
          some (estimateElectricityCostCad
            (((buckets.filter (fun b => asciiLower b.usageUnit = "kwh")).map
              UsageBucket.usageValue).sum) days)) ∧
    (∀ kwh days : ℚ,
        (estimateElectricityCostCad kwh days).fixedCad = roundMoney (0.2330 * days) ∧
        (estimateElectricityCostCad kwh days).variableCad =
          roundMoney (min (max kwh 0) (22.5 * days) * 0.1172 +
            max (kwh - min (max kwh 0) (22.5 * days)) 0 * 0.1408) ∧
        (estimateElectricityCostCad kwh days).totalCad =
          roundMoney ((0.2330 * days +
            (min (max kwh 0) (22.5 * days) * 0.1172 +
              max (kwh - min (max kwh 0) (22.5 * days)) 0 * 0.1408)) +
            (0.2330 * days +
              (min (max kwh 0) (22.5 * days) * 0.1172 +
                max (kwh - min (max kwh 0) (22.5 * days)) 0 * 0.1408)) * 0.05)) ∧
    (∀ (buckets : List UsageBucket) (days : ℚ), 0 < days →
        (∃ b ∈ buckets, asciiLower b.usageUnit = "gj") →
        estimateCostForBuckets "gas" buckets days =
          some (estimateGasCostCadFromGj
            (((buckets.filter (fun b => asciiLower b.usageUnit = "gj")).map
              UsageBucket.usageValue).sum) days)) ∧
    (∀ (buckets : List UsageBucket) (days : ℚ), 0 < days →
        (∀ b ∈ buckets, asciiLower b.usageUnit ≠ "gj") →
        estimateCostForBuckets "gas" buckets days =
          some (estimateGasCostCadFromGj
            ((buckets.map (fun b => (toGasGj b.usageValue b.usageUnit).getD 0)).sum) days)) ∧
    (∀ v : ℚ, toGasGj v "m3" = some (v * 0.1325) ∧ toGasGj v "GJ" = some v ∧
        toGasGj v "kWh" = none) ∧
    (∀ usage days : ℚ,
        centsRounded (estimateElectricityCostCad usage days).totalCad ∧
        centsRounded (estimateElectricityCostCad usage days).fixedCad ∧
        centsRounded (estimateElectricityCostCad usage days).variableCad ∧
        centsRounded (estimateElectricityCostCad usage days).taxesAndLeviesCad ∧
        centsRounded (estimateGasCostCadFromGj usage days).totalCad ∧
        centsRounded (estimateGasCostCadFromGj usage days).fixedCad ∧
        centsRounded (estimateGasCostCadFromGj usage days).variableCad ∧
        centsRounded (estimateGasCostCadFromGj usage days).taxesAndLeviesCad) := by
  refine ⟨?_, ?_, ?_, ?_, ?_, ?_, ?_, ?_⟩
  · intro utilityType buckets days hd
    unfold estimateCostForBuckets
    rw [if_pos hd]
  · intro utilityType buckets days h1 h2
    simp [estimateCostForBuckets, h1, h2]
  · intro buckets days hd
    unfold estimateCostForBuckets
    rw [if_neg (not_le.mpr hd), if_pos rfl]
  · intro kwh days
    refine ⟨rfl, rfl, rfl⟩
  · intro buckets days hd hex
    obtain ⟨b, hb, hbgj⟩ := hex
    unfold estimateCostForBuckets
    rw [if_neg (not_le.mpr hd), if_neg (by decide), if_pos rfl]
    have hmem : b ∈ buckets.filter (fun b => asciiLower b.usageUnit = "gj") :=
      List.mem_filter.mpr ⟨hb, by simp [hbgj]⟩
    have hpos : (buckets.filter (fun b => asciiLower b.usageUnit = "gj")).length > 0 :=
      List.length_pos.mpr (List.ne_nil_of_mem hmem)
    simp only [hpos, if_pos]
    have hmapeq : List.map (fun b => (toGasGj b.usageValue b.usageUnit).getD 0)
        (buckets.filter (fun b => decide (asciiLower b.usageUnit = "gj"))) =
        List.map UsageBucket.usageValue
          (buckets.filter (fun b => decide (asciiLower b.usageUnit = "gj"))) := by
      apply List.map_congr_left
      intro c hc
      have hcgj : asciiLower c.usageUnit = "gj" := by
        have := (List.mem_filter.mp hc).2
        simpa using this
      simp [toGasGj, hcgj]
    rw [hmapeq]
  · intro buckets days hd hnone
    unfold estimateCostForBuckets
    rw [if_neg (not_le.mpr hd), if_neg (by decide), if_pos rfl]
    have hempty : buckets.filter (fun b => asciiLower b.usageUnit = "gj") = [] := by
      apply List.filter_eq_nil_iff.mpr
      intro b hb
      simpa using hnone b hb
    simp [hempty]
  · intro v
    refine ⟨by simp [toGasGj, asciiLower, FORTIS_GAS_RATES],
      by simp [toGasGj, asciiLower, FORTIS_GAS_RATES], ?_⟩
    simp only [toGasGj]
    rw [if_neg (by decide), if_neg (by decide)]
  · intro usage days
    exact ⟨centsRounded_roundMoney _, centsRounded_roundMoney _, centsRounded_roundMoney _,
      centsRounded_roundMoney _, centsRounded_roundMoney _, centsRounded_roundMoney _,
      centsRounded_roundMoney _, centsRounded_roundMoney _⟩

/-- Witness for C8: the electricity dispatch at a concrete bucket batch and
a positive window. -/
theorem C8_cost_estimator_witness :
    (0 : ℚ) < 2 ∧
    estimateCostForBuckets "electricity" [⟨"kWh", 10⟩, ⟨"m3", 5⟩] 2 =
      some (estimateElectricityCostCad
        ((([⟨"kWh", 10⟩, ⟨"m3", 5⟩] : List UsageBucket).filter
          (fun b => asciiLower b.usageUnit = "kwh")).map UsageBucket.usageValue).sum 2) :=
  ⟨by norm_num, C8_cost_estimator_contract.2.2.1 [⟨"kWh", 10⟩, ⟨"m3", 5⟩] 2 (by norm_num)⟩

/-- C7 counterexample: at a 21 day window with zero usage the rounded
electricity total is 5.14 CAD, but the rounded fixed charge plus the rounded
taxes-and-levies is 5.13 CAD, refuting the claimed equality. -/
theorem C7_zero_usage_counterexample :
    (0 : ℚ) < 21 ∧
    (estimateElectricityCostCad 0 21).variableCad = 0 ∧
    (estimateElectricityCostCad 0 21).totalCad = 5.14 ∧
    (estimateElectricityCostCad 0 21).fixedCad +
      (estimateElectricityCostCad 0 21).taxesAndLeviesCad = 5.13 ∧
    (5.14 : ℚ) ≠ (5.13 : ℚ) := by
  refine ⟨by norm_num, ?_, ?_, ?_, by norm_num⟩ <;>
    norm_num [estimateElectricityCostCad, BC_HYDRO_RATES, roundMoney, round3, jsRound]

/-- C7 (amended): at zero usage the variable component is zero and the
rounded total equals the rounded fixed charge plus the rounded
taxes-and-levies up to one cent, for electricity and for gas; and the total
is monotone in usage for both utilities. -/
theorem C7_zero_usage_and_monotone (days : ℚ) (hd : 0 < days) :
    ((estimateElectricityCostCad 0 days).variableCad = 0 ∧
      |(estimateElectricityCostCad 0 days).totalCad -
        ((estimateElectricityCostCad 0 days).fixedCad +
          (estimateElectricityCostCad 0 days).taxesAndLeviesCad)| ≤ 1/100) ∧
    ((estimateGasCostCadFromGj 0 days).variableCad = 0 ∧
      |(estimateGasCostCadFromGj 0 days).totalCad -
        ((estimateGasCostCadFromGj 0 days).fixedCad +
          (estimateGasCostCadFromGj 0 days).taxesAndLeviesCad)| ≤ 1/100) ∧
    (∀ k1 k2 : ℚ, k1 ≤ k2 →
      (estimateElectricityCostCad k1 days).totalCad ≤
        (estimateElectricityCostCad k2 days).totalCad) ∧
    (∀ g1 g2 : ℚ, g1 ≤ g2 →
      (estimateGasCostCadFromGj g1 days).totalCad ≤
        (estimateGasCostCadFromGj g2 days).totalCad) := by
  have hcap : (0 : ℚ) ≤ 22.5 * days := by nlinarith
  have hmin0 : min (max (0:ℚ) 0) (22.5 * days) = 0 := by
    rw [max_self]
    exact min_eq_left hcap
  refine ⟨⟨?_, ?_⟩, ⟨?_, ?_⟩, ?_, ?_⟩
  · simp only [estimateElectricityCostCad, BC_HYDRO_RATES, hmin0]
    norm_num [roundMoney, jsRound]
  · simp only [estimateElectricityCostCad, BC_HYDRO_RATES, hmin0]
    have key := roundMoney_add_close (0.2330 * days) (0.2330 * days * 0.05)
    have e1 : 0.2330 * days + (0 * 0.1172 + max (0 - 0) 0 * 0.1408) +
        (0.2330 * days + (0 * 0.1172 + max (0 - 0) 0 * 0.1408)) * 0.05 =
        0.2330 * days + 0.2330 * days * 0.05 := by
      norm_num
    have e2 : (0.2330 : ℚ) * days + (0 * 0.1172 + max (0 - 0) 0 * 0.1408) =
        0.2330 * days := by norm_num
    rw [e1, e2]
    exact key
  · simp only [estimateGasCostCadFromGj, FORTIS_GAS_RATES]
    norm_num [roundMoney, jsRound]
  · simp only [estimateGasCostCadFromGj, FORTIS_GAS_RATES]
    have key := roundMoney_add_close (0.4216 * days)
      (0.4216 * days * 0.004 + (0.4216 * days + 0.4216 * days * 0.004) * 0.05)
    have e1 : 0.4216 * days + max (0:ℚ) 0 * (8.469 + 2.255 + 2.23) = 0.4216 * days := by
      norm_num
    rw [e1]
    have e2 : 0.4216 * days + 0.4216 * days * 0.004 +
        (0.4216 * days + 0.4216 * days * 0.004) * 0.05 =
        0.4216 * days +
          (0.4216 * days * 0.004 + (0.4216 * days + 0.4216 * days * 0.004) * 0.05) := by
      ring
    rw [e2]
    exact key
  · intro k1 k2 hk
    simp only [estimateElectricityCostCad, BC_HYDRO_RATES]
    apply roundMoney_mono
    have := @elec_variable_mono (22.5 * days) 0.1172 0.1408
      hcap (by norm_num) (by norm_num) k1 k2 hk
    nlinarith
  · intro g1 g2 hg
    simp only [estimateGasCostCadFromGj, FORTIS_GAS_RATES]
    apply roundMoney_mono
    have hm : max g1 0 ≤ max g2 0 := max_le_max hg le_rfl
    nlinarith

/-- Witness for C7 at a 2 day window and usage 0 versus 5. -/
theorem C7_zero_usage_witness :
    (0 : ℚ) < 2 ∧ (estimateElectricityCostCad 0 2).variableCad = 0 ∧
    ((0 : ℚ) ≤ 5 →
      (estimateElectricityCostCad 0 2).totalCad ≤ (estimateElectricityCostCad 5 2).totalCad) :=
  ⟨by norm_num, (C7_zero_usage_and_monotone 2 (by norm_num)).1.1,
    fun _ => (C7_zero_usage_and_monotone 2 (by norm_num)).2.2.1 0 5 (by norm_num)⟩

end Decosta
